import Mathlib

/-!
# YappyGitHub: the channel configuration registry

A shallow embedding of `lib/Models/ChannelConfig.js` and of the webhook
handler `Github/webhooks.js`.

Modelling decisions.

* A JavaScript object is an insertion-ordered property map (`Obj`); reading a
  missing property gives `undefined`. The values are the ones the schema of
  the file speaks of: strings, booleans, arrays of strings, and `undefined`.
  The map describes data properties: a name that the prototype chain
  resolves (`reservedNames`, e.g. `__proto__` or `hasOwnProperty`) is read
  and written differently by the language and is outside the map.
* The cache `_data` is a discord.js `Collection`, i.e. an insertion-ordered
  `Map` from keys to cached objects (`Collection`).
* A cached object is only reachable through the cache, so an assignment made
  through the reference that `find` returned is an update of the cache entry
  that holds the object (`Collection.updateFound`). Array objects are treated
  as values; two cache entries never share one array object in the states
  built by `add`, `addRepoToChannel` and `deleteRepo`.
* The back reference `_client` of a `ChannelConfigItem` always is the one
  manager object and is left out of the property map.
* A promise is represented by its settlement (`Outcome`); an exception that
  leaves the function synchronously is `Outcome.thrown`. Whether a database
  call succeeds is an input of the operation (`ok : Bool`).
* The mongoose collection is an external library; `Store` is a small model of
  the four calls the file makes.
* `toLowerCase` maps the basic latin capital letters, the alphabet of
  repository identifiers.
* `init` is modelled together with the settlements of the creations it
  starts: its loop runs on the cache as it is when `init` is called, the
  creations settle afterwards in the order they were started.
* The functions of the module `GithubEvents` are not part of the embedding;
  the webhook handler is described by its answer and the calls it makes.
-/

namespace Yappy

/-- JavaScript values occurring in channel configuration records. -/
inductive Value where
  | undefined
  | bool (b : Bool)
  | str (s : String)
  | arr (xs : List String)
  deriving DecidableEq, Repr

/-- JavaScript truthiness of a value. -/
def Value.truthy : Value → Bool
  | .undefined => false
  | .bool b => b
  | .str s => s != ""
  | .arr _ => true

/-- An optional string as a JavaScript value (`undefined` when missing). -/
def Value.ofOption : Option String → Value
  | none => .undefined
  | some s => .str s

/-- A JavaScript object: its own properties in insertion order. -/
abbrev Obj := List (String × Value)

/-- Property read `o[k]` of a data property. -/
def Obj.get (o : Obj) (k : String) : Value :=
  match o with
  | [] => .undefined
  | (k', v) :: rest => if k' = k then v else Obj.get rest k

/-- Property write `o[k] = v` of a data property: the own property `k` is
created or updated. For a name of `reservedNames` the language may do
otherwise (the assignment to `__proto__` creates no property). -/
def Obj.set (o : Obj) (k : String) (v : Value) : Obj :=
  match o with
  | [] => [(k, v)]
  | (k', v') :: rest => if k' = k then (k, v) :: rest else (k', v') :: Obj.set rest k v

/-- Why a promise was rejected or an exception thrown: a literal message of
the source, a `TypeError` of the language, or an error of the database. -/
inductive Reason where
  | message (text : String)
  | typeError
  | storeError
  deriving DecidableEq, Repr

/-- Settlement of a call: the promise resolved, the promise was rejected, or
the call threw before returning a promise. -/
inductive Outcome (α : Type) where
  | resolved (v : α)
  | rejected (r : Reason)
  | thrown (r : Reason)
  deriving DecidableEq, Repr

/-- Whether the settlement is a rejection. -/
def Outcome.isRejected {α : Type} : Outcome α → Bool
  | .rejected _ => true
  | _ => false

/-- `String.prototype.toLowerCase`, on the basic latin letters. -/
def toLowerCase (s : String) : String :=
  ⟨s.data.map Char.toLower⟩

/-- `Array.prototype.indexOf`: index of the first element strictly equal to
`x`, or `-1`. -/
def Array.indexOf (xs : List String) (x : String) : Int :=
  match xs with
  | [] => -1
  | y :: rest =>
    if y = x then 0
    else
      let i := Array.indexOf rest x
      if i < 0 then -1 else i + 1

/-- The call `xs.slice(0, e)` of arrays and of strings: a negative `e` counts
from the end. -/
def slice0 {α : Type} (xs : List α) (e : Int) : List α :=
  if e < 0 then xs.take (xs.length - e.natAbs) else xs.take e.toNat

/-- `Array.prototype.splice(start, 1)` as the source calls it: removes one
element at `start`, a negative `start` counting from the end. -/
def splice1 {α : Type} (xs : List α) (start : Int) : List α :=
  if start < 0 then xs.eraseIdx (xs.length - start.natAbs) else xs.eraseIdx start.toNat

/-- `String.prototype.indexOf` on character sequences: position of the first
occurrence of `pat`, or `-1`. -/
def String.indexOfChars (s pat : List Char) : Int :=
  if pat.isPrefixOf s then 0
  else
    match s with
    | [] => -1
    | _ :: rest =>
      let i := String.indexOfChars rest pat
      if i < 0 then -1 else i + 1

/-- The discord.js `Collection` (a `Map`): entries in insertion order. -/
abbrev Collection := List (String × Obj)

/-- `Map.prototype.set`: replaces the value of an existing key in place,
appends a new key. -/
def Collection.set (m : Collection) (k : String) (v : Obj) : Collection :=
  match m with
  | [] => [(k, v)]
  | (k', v') :: rest =>
    if k' = k then (k, v) :: rest else (k', v') :: Collection.set rest k v

/-- `Map.prototype.get`. -/
def Collection.get (m : Collection) (k : String) : Option Obj :=
  match m with
  | [] => none
  | (k', v) :: rest => if k' = k then some v else Collection.get rest k

/-- `Collection.find(fn)`: the first value satisfying `fn`. -/
def Collection.find (m : Collection) (fn : Obj → Bool) : Option Obj :=
  match m with
  | [] => none
  | (_, v) :: rest => if fn v then some v else Collection.find rest fn

/-- `Collection.filter(fn)` for a total predicate. -/
def Collection.filter (m : Collection) (fn : Obj → Bool) : Collection :=
  List.filter (fun kv => fn kv.2) m

/-- `Collection.filter(fn)` for a predicate that may throw: the first
exception aborts the traversal. -/
def Collection.filterE (m : Collection) (fn : Obj → Except Reason Bool) :
    Except Reason Collection :=
  match m with
  | [] => .ok []
  | (k, v) :: rest =>
    match fn v with
    | .error e => .error e
    | .ok b =>
      match Collection.filterE rest fn with
      | .error e => .error e
      | .ok r => .ok (if b then (k, v) :: r else r)

/-- An assignment through the reference returned by `find`: the first value
satisfying `fn` is the object that is mutated by `f`. -/
def Collection.updateFound (m : Collection) (fn : Obj → Bool) (f : Obj → Obj) :
    Collection :=
  match m with
  | [] => []
  | (k, v) :: rest =>
    if fn v then (k, f v) :: rest else (k, v) :: Collection.updateFound rest fn f

/-- The paths of `channelConfigSchema`. -/
def schemaPaths : List String :=
  ["guildName", "guildID", "channelName", "channelID", "repo", "repos", "embed",
   "disabledEvents", "ignoredUsers", "ignoredBranches"]

/-- The paths of `channelConfigSchema` of type `Array`. -/
def arrayPaths : List String :=
  ["repos", "disabledEvents", "ignoredUsers", "ignoredBranches"]

/-- The `default` of the path `disabledEvents` in `channelConfigSchema`. -/
def defaultDisabledEvents : List String :=
  ["deployment", "deployment_status", "page_build", "pull_request/labeled",
   "pull_request/unlabeled", "pull_request/edited", "pull_request/review_requested",
   "pull_request/review_request_removed", "status"]

/-- What a new document holds at a path the creator left out. -/
def schemaDefault (path : String) : Value :=
  if path = "disabledEvents" then .arr defaultDisabledEvents
  else if path ∈ arrayPaths then .arr []
  else .undefined

/-- The persisted documents of the mongoose model `channelConfig`. -/
abbrev Store := List Obj

/-- Model of `channelConfig.create(conf)`: the new document keeps the schema
paths of `conf` and takes the schema defaults elsewhere; a path without a
value is not stored. -/
def Store.create (st : Store) (conf : Obj) : Store :=
  st ++ [(schemaPaths.map (fun p =>
    (p, if Obj.get conf p = .undefined then schemaDefault p else Obj.get conf p))).filter
      (fun kv => kv.2 ≠ .undefined)]

/-- Model of `channelConfig.findOneAndRemove` with a query on one path:
removes the first document whose `path` equals `v`. -/
def Store.findOneAndRemove (st : Store) (path : String) (v : Value) : Store :=
  match st with
  | [] => []
  | d :: rest =>
    if Obj.get d path = v then rest else d :: Store.findOneAndRemove rest path v

/-- Model of the update part of `findOneAndUpdate`: the schema paths that the
update defines are set on the document. -/
def Store.applyUpdate (doc update : Obj) : Obj :=
  schemaPaths.foldl (fun d p =>
    if Obj.get update p = .undefined then d else Obj.set d p (Obj.get update p)) doc

/-- Model of `channelConfig.findOneAndUpdate` with the query on `channelID`:
updates the first document whose `channelID` is `channel`, if there is one. -/
def Store.findOneAndUpdate (st : Store) (channel : String) (update : Obj) : Store :=
  match st with
  | [] => []
  | d :: rest =>
    if Obj.get d "channelID" = .str channel then Store.applyUpdate d update :: rest
    else d :: Store.findOneAndUpdate rest channel update

/-- The constructor `new ChannelConfigItem(client, config)`: copies every own
property of `config`. -/
def ChannelConfigItem.new (config : Obj) : Obj :=
  config.foldl (fun this kv => Obj.set this kv.1 (Obj.get config kv.1)) []

/-- The guild of a chat channel, as far as the source reads it. -/
structure Guild where
  id : Option String
  name : Option String
  deriving DecidableEq, Repr

/-- A chat channel of the bot client, as far as the source reads it. -/
structure Channel where
  id : Option String
  name : Option String
  type : String
  guild : Option Guild
  deriving DecidableEq, Repr

/-- The channel config manager: the cache `_data`, the two flags, and the
persisted documents it writes through to. -/
structure ChannelConfig where
  _data : Collection
  setupEvents : Bool
  loaded : Bool
  store : Store
  deriving DecidableEq, Repr

namespace ChannelConfig

/-- The field `validKeys` set by the constructor. -/
def validKeys : List String :=
  ["repos", "repo", "embed", "disabledEvents", "ignoredUsers", "ignoredBranches"]

/-- The method `findByChannel(channel)`. -/
def findByChannel (self : ChannelConfig) (channel : String) : Option Obj :=
  Collection.find self._data (fun e => Obj.get e "channelID" = .str channel)

/-- The element `xs[0]` of an array. -/
def first (xs : List String) : Value :=
  match xs with
  | [] => .undefined
  | x :: _ => .str x

/-- The callback of `findByRepo`: `e.repos.filter(r => r === re)[0]`, which
throws when `e.repos` has no method `filter`. -/
def findByRepoCallback (re : String) (e : Obj) : Except Reason Bool :=
  match Obj.get e "repos" with
  | .arr repos => .ok (first (repos.filter (fun r => r = re))).truthy
  | _ => .error .typeError

/-- The method `findByRepo(repo)`. -/
def findByRepo (self : ChannelConfig) (repo : String) : Except Reason Collection :=
  let re := toLowerCase repo
  Collection.filterE self._data (findByRepoCallback re)

/-- The method `delete(channel)`. -/
def delete (self : ChannelConfig) (channel : String) (ok : Bool) :
    Outcome Unit × ChannelConfig :=
  if ok then
    let oldData := self._data
    let newData := Collection.filter oldData (fun e => Obj.get e "channel" ≠ .str channel)
    (.resolved (),
      { self with
        store := Store.findOneAndRemove self.store "channelID" (.str channel)
        _data := newData })
  else (.rejected .storeError, self)

/-- The method `setChannel(channel, prop, value)`. -/
def setChannel (self : ChannelConfig) (channel prop : String) (value : Value) (ok : Bool) :
    Outcome Obj × ChannelConfig :=
  match self.findByChannel channel with
  | none => (.rejected .typeError, self)
  | some oldConfig =>
    let newConfig := Obj.set oldConfig prop value
    let mutated : ChannelConfig :=
      { self with
        _data := Collection.updateFound self._data
          (fun e => Obj.get e "channelID" = .str channel) (fun e => Obj.set e prop value) }
    if ok then
      (.resolved newConfig,
        { mutated with
          store := Store.findOneAndUpdate mutated.store channel newConfig
          _data := Collection.set mutated._data channel (ChannelConfigItem.new newConfig) })
    else (.rejected .storeError, mutated)

/-- The method `deleteRepo(channel, repo)`; `ok` is the outcome of the removal
query, `ok2` that of the update made by `setChannel`. -/
def deleteRepo (self : ChannelConfig) (channel repo : String) (ok ok2 : Bool) :
    Outcome Obj × ChannelConfig :=
  if ok then
    let removed : ChannelConfig :=
      { self with store := Store.findOneAndRemove self.store "repo" (.str repo) }
    match removed.findByChannel channel with
    | none => (.rejected .typeError, removed)
    | some oldConfig =>
      match Obj.get oldConfig "repos" with
      | .arr repos =>
        let newRepos := slice0 repos (Array.indexOf repos repo)
        removed.setChannel channel "repos" (.arr newRepos) ok2
      | .str text =>
        let newRepos := slice0 text.data (String.indexOfChars text.data repo.data)
        removed.setChannel channel "repos" (.str ⟨newRepos⟩) ok2
      | _ => (.rejected .typeError, removed)
  else (.rejected .storeError, self)

/-- The method `add(channel)`. -/
def add (self : ChannelConfig) (channel : Option Channel) (ok : Bool) :
    Outcome Unit × ChannelConfig :=
  match channel with
  | none => (.rejected (.message "No channel passed!"), self)
  | some ch =>
    match ch.id with
    | none => (.rejected (.message "No channel passed!"), self)
    | some id =>
      if id = "" then (.rejected (.message "No channel passed!"), self)
      else if (self.findByChannel id).isSome then
        (.rejected (.message "Channel already has an entry in database"), self)
      else
        let conf : Obj :=
          [("guildID", match ch.guild with
              | none => .undefined
              | some g => Value.ofOption g.id),
           ("guildName", match ch.guild with
              | none => .undefined
              | some g => Value.ofOption g.name),
           ("channelID", .str id),
           ("channelName", Value.ofOption ch.name),
           ("repos", .arr []),
           ("prefix", .str "G! ")]
        if ok then
          (.resolved (),
            { self with
              store := Store.create self.store conf
              _data := Collection.set self._data id (ChannelConfigItem.new conf) })
        else (.rejected .storeError, self)

/-- The method `addRepoToChannel(channel, repo)`. -/
def addRepoToChannel (self : ChannelConfig) (channel repo : String) (ok : Bool) :
    Outcome Obj × ChannelConfig :=
  if channel = "" ∨ repo = "" then (.rejected (.message "Invalid arguments."), self)
  else
    match self.findByChannel channel with
    | none => (.thrown .typeError, self)
    | some conf =>
      match Obj.get conf "repos" with
      | .arr repos =>
        let pushed := repos ++ [toLowerCase repo]
        let mutated : ChannelConfig :=
          { self with
            _data := Collection.updateFound self._data
              (fun e => Obj.get e "channelID" = .str channel)
              (fun e => Obj.set e "repos" (.arr pushed)) }
        mutated.setChannel channel "repos" (.arr pushed) ok
      | _ => (.thrown .typeError, self)

end ChannelConfig

/-- The registry states reachable from an empty cache by `add`,
`addRepoToChannel` and `deleteRepo`, whatever the database answers. -/
inductive Reachable : ChannelConfig → Prop
  | empty (s : ChannelConfig) (h : s._data = []) : Reachable s
  | add (s : ChannelConfig) (channel : Option Channel) (ok : Bool) :
      Reachable s → Reachable (s.add channel ok).2
  | addRepoToChannel (s : ChannelConfig) (channel repo : String) (ok : Bool) :
      Reachable s → Reachable (s.addRepoToChannel channel repo ok).2
  | deleteRepo (s : ChannelConfig) (channel repo : String) (ok ok2 : Bool) :
      Reachable s → Reachable (s.deleteRepo channel repo ok ok2).2

/-- Specification side of `findByRepo`: the record's `repos` is a list that
contains `re`. -/
def containsRepo (re : String) (e : Obj) : Bool :=
  match Obj.get e "repos" with
  | .arr xs => decide (re ∈ xs)
  | _ => false

/-- A repository entry that is not empty and is its own lowercase form. -/
def GoodRepo (x : String) : Prop :=
  x ≠ "" ∧ toLowerCase x = x

/-- Every cached record has a `repos` array of good entries. -/
def ReposInv (m : Collection) : Prop :=
  ∀ kv ∈ m, ∃ xs, Obj.get kv.2 "repos" = .arr xs ∧ ∀ x ∈ xs, GoodRepo x

/-- The object literal `conf` that `add` builds for a channel with id `id`. -/
def addConf (ch : Channel) (id : String) : Obj :=
  [("guildID", match ch.guild with
      | none => .undefined
      | some g => Value.ofOption g.id),
   ("guildName", match ch.guild with
      | none => .undefined
      | some g => Value.ofOption g.name),
   ("channelID", .str id),
   ("channelName", Value.ofOption ch.name),
   ("repos", .arr []),
   ("prefix", .str "G! ")]

/-- A registry with an empty cache and an empty store, after loading. -/
def emptyRegistry : ChannelConfig :=
  { _data := [], setupEvents := false, loaded := true, store := [] }

/-- A text channel with id `c`. -/
def exampleChannel : Channel :=
  { id := some "c", name := some "general", type := "text",
    guild := some { id := some "g", name := some "Guild" } }

/-- The registry after `add(exampleChannel)` on the empty registry. -/
def registryC : ChannelConfig :=
  (emptyRegistry.add (some exampleChannel) true).2

/-- The registry after subscribing channel `c` to `Acme/Widgets`. -/
def registryWidgets : ChannelConfig :=
  (registryC.addRepoToChannel "c" "Acme/Widgets" true).2

/-- The record of channel `c` in `registryWidgets`. -/
def recordWidgets : Obj :=
  [("guildID", .str "g"), ("guildName", .str "Guild"), ("channelID", .str "c"),
   ("channelName", .str "general"), ("repos", .arr ["acme/widgets"]),
   ("prefix", .str "G! ")]

/-- The registry after subscribing channel `c` to three repositories. -/
def registryThree : ChannelConfig :=
  ((registryWidgets.addRepoToChannel "c" "acme/gears" true).2.addRepoToChannel
    "c" "acme/bolts" true).2

/-- The method `findByChannel` called with a value that may be `undefined`,
as `init` does with `channel.id`. -/
def ChannelConfig.findByChannelValue (self : ChannelConfig) (channel : Value) : Option Obj :=
  Collection.find self._data (fun e => Obj.get e "channelID" = channel)

/-- `Collection.find(fn)` for a predicate that may throw. -/
def Collection.findE (m : Collection) (fn : Obj → Except Reason Bool) :
    Except Reason (Option Obj) :=
  match m with
  | [] => .ok none
  | (_, v) :: rest =>
    match fn v with
    | .error e => .error e
    | .ok b => if b then .ok (some v) else Collection.findE rest fn

/-- The callback of `findRepoInChannel`:
`e.channelID === channel && e.repos.includes(repo)`; `includes` is the array
method, the string method, or missing. -/
def ChannelConfig.findRepoInChannelCallback (channel repo : String) (e : Obj) :
    Except Reason Bool :=
  if Obj.get e "channelID" = .str channel then
    match Obj.get e "repos" with
    | .arr repos => .ok (decide (repo ∈ repos))
    | .str text => .ok (decide (0 ≤ String.indexOfChars text.data repo.data))
    | _ => .error .typeError
  else .ok false

/-- The method `findRepoInChannel(channel, repo)`. -/
def ChannelConfig.findRepoInChannel (self : ChannelConfig) (channel repo : String) :
    Except Reason (Option Obj) :=
  Collection.findE self._data (ChannelConfig.findRepoInChannelCallback channel repo)

/-- The method `set(prop, value)` of the cached item of channel `channel`,
the object that `findByChannel(channel)` returns: its `channelID` is
`channel`. -/
def ChannelConfigItem.set (client : ChannelConfig) (channel prop : String) (value : Value)
    (ok : Bool) : Outcome Obj × ChannelConfig :=
  client.setChannel channel prop value ok

/-- The method `deleteRepo(repo)` of the cached item of channel `channel`;
calling it on a missing item throws. -/
def ChannelConfigItem.deleteRepo (client : ChannelConfig) (channel repo : String)
    (ok : Bool) : Outcome Obj × ChannelConfig :=
  match client.findByChannel channel with
  | none => (.thrown .typeError, client)
  | some this =>
    match Obj.get this "repos" with
    | .arr repos =>
      let spliced := splice1 repos (Array.indexOf repos repo)
      let mutated : ChannelConfig :=
        { client with
          _data := Collection.updateFound client._data
            (fun e => Obj.get e "channelID" = .str channel)
            (fun e => Obj.set e "repos" (.arr spliced)) }
      ChannelConfigItem.set mutated channel "repos" (.arr spliced) ok
    | _ => (.thrown .typeError, client)

/-- The manager right after its constructor, before the query of `setup` has
answered; `store` is the content of the database. -/
def ChannelConfig.new (store : Store) : ChannelConfig :=
  { _data := [], setupEvents := false, loaded := false, store := store }

/-- The loop of `setup` over the rows: each is cached under its `channelID`.
The result is `none` when a row has no string `channelID`: it would be cached
under a key that is not a string, which `Collection` does not represent. -/
def ChannelConfig.setupRows (rows : Store) (data : Collection) : Option Collection :=
  match rows with
  | [] => some data
  | row :: rest =>
    match Obj.get row "channelID" with
    | .str id => ChannelConfig.setupRows rest (Collection.set data id (ChannelConfigItem.new row))
    | _ => none

/-- The method `setup()` once its query has answered; `ok` tells whether the
query succeeded. A failure is only logged. -/
def ChannelConfig.setup (self : ChannelConfig) (ok : Bool) : Option ChannelConfig :=
  if ok then
    (ChannelConfig.setupRows self.store self._data).map
      (fun d => { self with loaded := true, _data := d })
  else some self

/-- What `init` does besides changing the manager: the delay of the timer
that calls it again, whether an exception left it, the errors emitted on the
bot, and the bot events it registered a listener for. -/
structure InitResult where
  retryAfter : Option Nat
  thrown : Bool
  emitted : List Reason
  listeners : List String
  deriving DecidableEq, Repr

/-- The loop of `init` over `bot.channels`: the channels for which `add` is
called, and whether the log line threw on a channel without guild, which ends
the loop. The cache does not change during the loop, because the creations
complete later. -/
def ChannelConfig.initLoop (self : ChannelConfig) (channels : List (Option Channel)) :
    List Channel × Bool :=
  match channels with
  | [] => ([], false)
  | none :: rest => ChannelConfig.initLoop self rest
  | some channel :: rest =>
    if channel.type ≠ "text" then ChannelConfig.initLoop self rest
    else if (self.findByChannelValue (Value.ofOption channel.id)).isSome then
      ChannelConfig.initLoop self rest
    else
      match channel.guild with
      | none => ([], true)
      | some _ =>
        let r := ChannelConfig.initLoop self rest
        (channel :: r.1, r.2)

/-- Settlement of an `add(channel)` that `init` called: the guards of `add`
were evaluated during the loop, where the channel had no record, so only a
missing id rejects; otherwise the document is created and the record cached
when the database answers. -/
def ChannelConfig.initSettle (self : ChannelConfig) (channel : Channel) (ok : Bool) :
    Outcome Unit × ChannelConfig :=
  match channel.id with
  | none => (.rejected (.message "No channel passed!"), self)
  | some id =>
    if id = "" then (.rejected (.message "No channel passed!"), self)
    else if ok then
      (.resolved (),
        { self with
          store := Store.create self.store (addConf channel id)
          _data := Collection.set self._data id (ChannelConfigItem.new (addConf channel id)) })
    else (.rejected .storeError, self)

/-- The settlements of the creations that `init` started, in the order they
were started; a rejection is emitted as an error on the bot. -/
def ChannelConfig.initSettleAll (self : ChannelConfig) (started : List Channel)
    (ok : Channel → Bool) : List Reason × ChannelConfig :=
  match started with
  | [] => ([], self)
  | channel :: rest =>
    let r := ChannelConfig.initSettle self channel (ok channel)
    let t := ChannelConfig.initSettleAll r.2 rest ok
    match r.1 with
    | .rejected e => (e :: t.1, t.2)
    | _ => (t.1, t.2)

/-- The method `init(bot)` together with the settlements of the creations it
started; `channels` are the values of `bot.channels`, and `ok` tells for each
channel whether the database creates its document. -/
def ChannelConfig.init (self : ChannelConfig) (channels : List (Option Channel))
    (ok : Channel → Bool) : InitResult × ChannelConfig :=
  if self.loaded = false then
    ({ retryAfter := some 5000, thrown := false, emitted := [], listeners := [] }, self)
  else
    let loop := ChannelConfig.initLoop self channels
    let settled := ChannelConfig.initSettleAll self loop.1 ok
    if loop.2 then
      ({ retryAfter := none, thrown := true, emitted := settled.1, listeners := [] }, settled.2)
    else if self.setupEvents then
      ({ retryAfter := none, thrown := false, emitted := settled.1, listeners := [] }, settled.2)
    else
      ({ retryAfter := none, thrown := false, emitted := settled.1,
         listeners := ["channelDelete", "channelCreate"] },
       { settled.2 with setupEvents := true })

/-- The repository reference of a webhook payload. -/
structure Repository where
  full_name : Option String
  deriving DecidableEq, Repr

/-- The body of a webhook request, as far as the handler reads it. -/
structure Payload where
  repository : Option Repository
  deriving DecidableEq, Repr

/-- A webhook request: the header `x-github-event` and the parsed body. -/
structure Request where
  event : Option String
  body : Option Payload
  deriving DecidableEq, Repr

/-- The functions of the module `GithubEvents` that the handler calls. -/
inductive GithubEvents where
  | Push | Release | Issues | IssueComment | PullRequest | Watch | Fork | Branch
  | Ping | Repository | Member | Status | Gollum
  deriving DecidableEq, Repr

/-- One call of a function of `GithubEvents`: `event` is the extra first
argument that only `Branch` receives. -/
structure HandlerCall where
  handler : GithubEvents
  event : Option String
  data : Payload
  deriving DecidableEq, Repr

/-- What the handler did: the status and text it answered with, and the
calls it made. -/
structure Response where
  status : Nat
  sent : String
  calls : List HandlerCall
  deriving DecidableEq, Repr

/-- The `switch` of the webhook handler. -/
def webhooksSwitch (event : String) (data : Payload) : List HandlerCall :=
  if event = "push" then [{ handler := .Push, event := none, data := data }]
  else if event = "release" then [{ handler := .Release, event := none, data := data }]
  else if event = "issues" then [{ handler := .Issues, event := none, data := data }]
  else if event = "issue_comment" then
    [{ handler := .IssueComment, event := none, data := data }]
  else if event = "pull_request" then
    [{ handler := .PullRequest, event := none, data := data }]
  else if event = "watch" then [{ handler := .Watch, event := none, data := data }]
  else if event = "fork" then [{ handler := .Fork, event := none, data := data }]
  else if event = "create" then [{ handler := .Branch, event := some event, data := data }]
  else if event = "delete" then [{ handler := .Branch, event := some event, data := data }]
  else if event = "ping" then [{ handler := .Ping, event := none, data := data }]
  else if event = "repository" then
    [{ handler := .Repository, event := none, data := data }]
  else if event = "member" then [{ handler := .Member, event := none, data := data }]
  else if event = "status" then [{ handler := .Status, event := none, data := data }]
  else if event = "gollum" then [{ handler := .Gollum, event := none, data := data }]
  else []

/-- The webhook handler exported by `Github/webhooks.js`; the status of an
answer sent without `res.status` is 200. -/
def webhooks (req : Request) : Response :=
  match req.event, req.body with
  | none, _ => { status := 403, sent := "INVALID DATA. PLZ USE GITHUB WEBHOOKS", calls := [] }
  | some _, none =>
    { status := 403, sent := "INVALID DATA. PLZ USE GITHUB WEBHOOKS", calls := [] }
  | some event, some data =>
    if event = "" ∨ data.repository = none then
      { status := 403, sent := "INVALID DATA. PLZ USE GITHUB WEBHOOKS", calls := [] }
    else { status := 200, sent := "Processing event.", calls := webhooksSwitch event data }

/-- The fourteen event-type tags that the `switch` has a case for. -/
def recognizedEvents : List String :=
  ["push", "release", "issues", "issue_comment", "pull_request", "watch", "fork", "create",
   "delete", "ping", "repository", "member", "status", "gollum"]

/-- The channel ids of the cached records, in cache order. -/
def cachedIds (s : ChannelConfig) : List Value :=
  s._data.map (fun kv => Obj.get kv.2 "channelID")

/-- The channel ids of the persisted documents, in store order. -/
def storedIds (s : ChannelConfig) : List Value :=
  s.store.map (fun d => Obj.get d "channelID")

/-- Every cache key is the `channelID` of the record stored under it. -/
def KeysMatch (m : Collection) : Prop :=
  ∀ kv ∈ m, Obj.get kv.2 "channelID" = .str kv.1

/-- The registry states reachable from an empty cache by `add`, `setChannel`
on a property other than `channelID`, `addRepoToChannel`, `delete` and
`deleteRepo`, whatever the database answers. -/
inductive ReachableKeepingId : ChannelConfig → Prop
  | empty (s : ChannelConfig) (h : s._data = []) : ReachableKeepingId s
  | add (s : ChannelConfig) (channel : Option Channel) (ok : Bool) :
      ReachableKeepingId s → ReachableKeepingId (s.add channel ok).2
  | setChannel (s : ChannelConfig) (channel prop : String) (value : Value) (ok : Bool) :
      prop ≠ "channelID" → ReachableKeepingId s →
      ReachableKeepingId (s.setChannel channel prop value ok).2
  | addRepoToChannel (s : ChannelConfig) (channel repo : String) (ok : Bool) :
      ReachableKeepingId s → ReachableKeepingId (s.addRepoToChannel channel repo ok).2
  | delete (s : ChannelConfig) (channel : String) (ok : Bool) :
      ReachableKeepingId s → ReachableKeepingId (s.delete channel ok).2
  | deleteRepo (s : ChannelConfig) (channel repo : String) (ok ok2 : Bool) :
      ReachableKeepingId s → ReachableKeepingId (s.deleteRepo channel repo ok ok2).2

/-- The registry `registryC` after the property `repo` of channel `c` was set
to `acme/widgets`. -/
def registryRepo : ChannelConfig :=
  (registryC.setChannel "c" "repo" (.str "acme/widgets") true).2

/-- A live voice channel with id `v`. -/
def voiceChannel : Channel :=
  { id := some "v", name := some "Lounge", type := "voice",
    guild := some { id := some "g", name := some "Guild" } }

/-- Three live channels: the text channels `c` and `d` and the voice channel
`v`. -/
def liveChannels : List (Option Channel) :=
  [some exampleChannel, some { exampleChannel with id := some "d" }, some voiceChannel]

/-- The types that `channelConfigSchema` declares. -/
inductive SchemaType where
  | String
  | Boolean
  | Array
  deriving DecidableEq, Repr

/-- The type of each path of `channelConfigSchema`. -/
def schemaType (path : String) : Option SchemaType :=
  if path = "guildName" ∨ path = "guildID" ∨ path = "channelName" ∨ path = "channelID" ∨
      path = "repo" then some .String
  else if path = "embed" then some .Boolean
  else if path = "repos" ∨ path = "disabledEvents" ∨ path = "ignoredUsers" ∨
      path = "ignoredBranches" then some .Array
  else none

/-- The value `v` has the type that the schema declares for `path`, so that
the database stores it as it is. -/
def wellTyped (path : String) (v : Value) : Bool :=
  match schemaType path, v with
  | some .String, .str _ => true
  | some .Boolean, .bool _ => true
  | some .Array, .arr _ => true
  | _, _ => false

/-- The states reached from `s0` by calls of `setChannel` that resolve: the
channel has a record and the database write succeeds; the property is one of
`validKeys` and the value has its schema type. -/
inductive SetSequence (s0 : ChannelConfig) : ChannelConfig → Prop
  | start : SetSequence s0 s0
  | step (s : ChannelConfig) (channel prop : String) (value : Value) :
      SetSequence s0 s → (s.findByChannel channel).isSome = true →
      prop ∈ ChannelConfig.validKeys → wellTyped prop value = true →
      SetSequence s0 (s.setChannel channel prop value true).2

/-- The cache and the store agree: cache keys are channel ids, the documents
have pairwise distinct string channel ids, and every cached record has a
document with its channel id and the same values at the `validKeys`. -/
def Synced (s : ChannelConfig) : Prop :=
  KeysMatch s._data ∧
  (∀ d ∈ s.store, ∃ id, Obj.get d "channelID" = .str id) ∧
  (storedIds s).Nodup ∧
  ∀ k o, Collection.get s._data k = some o →
    ∃ d ∈ s.store, Obj.get d "channelID" = .str k ∧
      ∀ q ∈ ChannelConfig.validKeys, Obj.get d q = Obj.get o q

/-- The registry loaded from the store of `registryC`. -/
def loadedC : ChannelConfig :=
  { _data := [("c", ChannelConfigItem.new
      [("guildName", .str "Guild"), ("guildID", .str "g"), ("channelName", .str "general"),
       ("channelID", .str "c"), ("repos", .arr []),
       ("disabledEvents", .arr defaultDisabledEvents), ("ignoredUsers", .arr []),
       ("ignoredBranches", .arr [])])],
    setupEvents := false, loaded := true, store := registryC.store }

/-- The property names that a `ChannelConfigItem` resolves through its
prototype chain (the members of `Object.prototype` and the methods of the
class), and the back reference `_client`: for them an assignment or the copy
loop of the constructor does not behave as for a data property. -/
def reservedNames : List String :=
  ["__proto__", "constructor", "hasOwnProperty", "isPrototypeOf", "propertyIsEnumerable",
   "toLocaleString", "toString", "valueOf", "__defineGetter__", "__defineSetter__",
   "__lookupGetter__", "__lookupSetter__", "set", "deleteRepo", "_client"]

/-! ## Properties of the language level operations -/

theorem toLower_toLower (c : Char) : c.toLower.toLower = c.toLower := by
  have key : ∀ n : Nat, 65 ≤ n → n ≤ 90 →
      ¬ ((Char.ofNat (n + 32)).toNat ≥ 65 ∧ (Char.ofNat (n + 32)).toNat ≤ 90) := by
    intro n h1 h2
    interval_cases n <;> decide
  by_cases h : c.toNat ≥ 65 ∧ c.toNat ≤ 90
  · have e : c.toLower = Char.ofNat (c.toNat + 32) := by
      unfold Char.toLower
      simp only [if_pos h]
    rw [e]
    unfold Char.toLower
    simp only [if_neg (key c.toNat h.1 h.2)]
  · have e : c.toLower = c := by
      unfold Char.toLower
      simp only [if_neg h]
    rw [e, e]

theorem toLowerCase_idem (s : String) : toLowerCase (toLowerCase s) = toLowerCase s := by
  simp only [toLowerCase, List.map_map]
  congr 1
  apply List.map_congr_left
  intro c _
  exact toLower_toLower c

theorem toLowerCase_ne_empty (s : String) (h : s ≠ "") : toLowerCase s ≠ "" := by
  intro h2
  apply h
  have := congrArg String.data h2
  simp [toLowerCase] at this
  exact String.ext this

theorem Obj.get_set_same (o : Obj) (k : String) (v : Value) :
    Obj.get (Obj.set o k v) k = v := by
  induction o with
  | nil => simp [Obj.set, Obj.get]
  | cons kv rest ih =>
    obtain ⟨a, b⟩ := kv
    by_cases h : a = k
    · simp [Obj.set, Obj.get, h]
    · simp [Obj.set, Obj.get, h, ih]

theorem Obj.get_set_other (o : Obj) (k j : String) (v : Value) (h : j ≠ k) :
    Obj.get (Obj.set o k v) j = Obj.get o j := by
  induction o with
  | nil => simp [Obj.set, Obj.get, Ne.symm h]
  | cons kv rest ih =>
    obtain ⟨a, b⟩ := kv
    by_cases hk : a = k
    · subst hk
      simp [Obj.set, Obj.get, Ne.symm h]
    · by_cases hj : a = j
      · subst hj
        simp [Obj.set, Obj.get, hk]
      · simp [Obj.set, Obj.get, hk, hj, ih]

theorem Obj.get_of_not_mem (o : Obj) (k : String) (h : k ∉ o.map Prod.fst) :
    Obj.get o k = .undefined := by
  induction o with
  | nil => rfl
  | cons kv rest ih =>
    obtain ⟨a, b⟩ := kv
    simp only [List.map_cons, List.mem_cons, not_or] at h
    simp [Obj.get, Ne.symm h.1, ih h.2]

theorem Obj.get_foldl (config l acc : Obj) (k : String) :
    Obj.get (l.foldl (fun this kv => Obj.set this kv.1 (Obj.get config kv.1)) acc) k
      = if k ∈ l.map Prod.fst then Obj.get config k else Obj.get acc k := by
  induction l generalizing acc with
  | nil => simp
  | cons kv rest ih =>
    obtain ⟨a, b⟩ := kv
    simp only [List.foldl_cons, List.map_cons, List.mem_cons]
    rw [ih]
    by_cases h1 : k ∈ rest.map Prod.fst
    · simp [h1]
    · by_cases h2 : k = a
      · subst h2
        simp [h1, Obj.get_set_same]
      · simp [h1, h2, Obj.get_set_other _ _ _ _ h2]

theorem ChannelConfigItem.get_new (config : Obj) (k : String) :
    Obj.get (ChannelConfigItem.new config) k = Obj.get config k := by
  unfold ChannelConfigItem.new
  rw [Obj.get_foldl]
  split
  · rfl
  · rename_i h
    rw [Obj.get_of_not_mem config k h]
    rfl

theorem Collection.mem_set (m : Collection) (k : String) (v : Obj) (kv : String × Obj)
    (h : kv ∈ Collection.set m k v) : kv = (k, v) ∨ kv ∈ m := by
  induction m with
  | nil => simpa [Collection.set] using h
  | cons e rest ih =>
    obtain ⟨a, b⟩ := e
    by_cases ha : a = k
    · rw [Collection.set, if_pos ha] at h
      rcases List.mem_cons.1 h with h0 | h0
      · exact Or.inl h0
      · exact Or.inr (List.mem_cons_of_mem _ h0)
    · rw [Collection.set, if_neg ha] at h
      rcases List.mem_cons.1 h with h0 | h0
      · right
        rw [h0]
        exact List.mem_cons_self _ _
      · rcases ih h0 with h1 | h1
        · exact Or.inl h1
        · exact Or.inr (List.mem_cons_of_mem _ h1)

theorem Collection.mem_updateFound (m : Collection) (fn : Obj → Bool) (f : Obj → Obj)
    (kv : String × Obj) (h : kv ∈ Collection.updateFound m fn f) :
    kv ∈ m ∨ ∃ o, (kv.1, o) ∈ m ∧ kv.2 = f o := by
  induction m with
  | nil => simp [Collection.updateFound] at h
  | cons e rest ih =>
    obtain ⟨a, b⟩ := e
    by_cases hb : fn b = true
    · rw [Collection.updateFound, if_pos hb] at h
      rcases List.mem_cons.1 h with h0 | h0
      · right
        refine ⟨b, ?_, ?_⟩
        · rw [h0]
          exact List.mem_cons_self _ _
        · rw [h0]
      · exact Or.inl (List.mem_cons_of_mem _ h0)
    · rw [Collection.updateFound, if_neg hb] at h
      rcases List.mem_cons.1 h with h0 | h0
      · left
        rw [h0]
        exact List.mem_cons_self _ _
      · rcases ih h0 with h3 | ⟨o, h1, h2⟩
        · exact Or.inl (List.mem_cons_of_mem _ h3)
        · exact Or.inr ⟨o, List.mem_cons_of_mem _ h1, h2⟩

theorem Collection.find_mem (m : Collection) (fn : Obj → Bool) (o : Obj)
    (h : Collection.find m fn = some o) : (∃ k, (k, o) ∈ m) ∧ fn o = true := by
  induction m with
  | nil => simp [Collection.find] at h
  | cons e rest ih =>
    obtain ⟨a, b⟩ := e
    by_cases hb : fn b = true
    · rw [Collection.find, if_pos hb] at h
      cases h
      exact ⟨⟨a, List.mem_cons_self _ _⟩, hb⟩
    · rw [Collection.find, if_neg hb] at h
      obtain ⟨⟨k, hk⟩, h2⟩ := ih h
      exact ⟨⟨k, List.mem_cons_of_mem _ hk⟩, h2⟩

theorem reposInv_updateFound (m : Collection) (fn : Obj → Bool) (ys : List String)
    (h : ReposInv m) (hy : ∀ x ∈ ys, GoodRepo x) :
    ReposInv (Collection.updateFound m fn (fun e => Obj.set e "repos" (.arr ys))) := by
  intro kv hkv
  rcases Collection.mem_updateFound _ _ _ _ hkv with h1 | ⟨o, _, h2⟩
  · exact h kv h1
  · exact ⟨ys, by rw [h2, Obj.get_set_same], hy⟩

theorem reposInv_set (m : Collection) (k : String) (v : Obj) (h : ReposInv m)
    (hv : ∃ xs, Obj.get v "repos" = .arr xs ∧ ∀ x ∈ xs, GoodRepo x) :
    ReposInv (Collection.set m k v) := by
  intro kv hkv
  rcases Collection.mem_set _ _ _ _ hkv with h1 | h1
  · rw [h1]
    exact hv
  · exact h kv h1

theorem reposInv_setChannel (s : ChannelConfig) (c : String) (ys : List String) (ok : Bool)
    (h : ReposInv s._data) (hy : ∀ x ∈ ys, GoodRepo x) :
    ReposInv (s.setChannel c "repos" (.arr ys) ok).2._data := by
  unfold ChannelConfig.setChannel
  cases hf : s.findByChannel c with
  | none => exact h
  | some old =>
    cases ok with
    | false => exact reposInv_updateFound _ _ _ h hy
    | true =>
      apply reposInv_set
      · exact reposInv_updateFound _ _ _ h hy
      · exact ⟨ys, by rw [ChannelConfigItem.get_new, Obj.get_set_same], hy⟩

/-! ## The invariant of the `repos` lists -/

theorem reposInv_add (s : ChannelConfig) (channel : Option Channel) (ok : Bool)
    (h : ReposInv s._data) : ReposInv (s.add channel ok).2._data := by
  rcases channel with _ | ⟨⟨_ | id, name, type, guild⟩⟩
  · exact h
  · exact h
  · simp only [ChannelConfig.add]
    by_cases h1 : id = ""
    · rw [if_pos h1]
      exact h
    · rw [if_neg h1]
      by_cases h2 : (s.findByChannel id).isSome = true
      · rw [if_pos h2]
        exact h
      · rw [if_neg h2]
        cases ok with
        | false => exact h
        | true =>
          apply reposInv_set _ _ _ h
          refine ⟨[], ?_, by simp⟩
          rw [ChannelConfigItem.get_new]
          simp [Obj.get]

theorem reposInv_addRepoToChannel (s : ChannelConfig) (channel repo : String) (ok : Bool)
    (h : ReposInv s._data) : ReposInv (s.addRepoToChannel channel repo ok).2._data := by
  unfold ChannelConfig.addRepoToChannel
  split
  · exact h
  · rename_i hargs
    simp only [not_or] at hargs
    cases hf : s.findByChannel channel with
    | none => exact h
    | some conf =>
      obtain ⟨⟨k, hk⟩, _⟩ := Collection.find_mem _ _ _ hf
      obtain ⟨xs, hxs, hgood⟩ := h (k, conf) hk
      simp only at hxs
      simp only [hxs]
      have hp : ∀ x ∈ xs ++ [toLowerCase repo], GoodRepo x := by
        intro x hx
        rcases List.mem_append.1 hx with hx | hx
        · exact hgood x hx
        · rw [List.mem_singleton.1 hx]
          exact ⟨toLowerCase_ne_empty repo hargs.2, toLowerCase_idem repo⟩
      apply reposInv_setChannel _ _ _ _ _ hp
      exact reposInv_updateFound _ _ _ h hp

theorem slice0_subset {α : Type} (xs : List α) (e : Int) (x : α) (h : x ∈ slice0 xs e) :
    x ∈ xs := by
  unfold slice0 at h
  split at h <;> exact List.mem_of_mem_take h

theorem reposInv_deleteRepo (s : ChannelConfig) (channel repo : String) (ok ok2 : Bool)
    (h : ReposInv s._data) : ReposInv (s.deleteRepo channel repo ok ok2).2._data := by
  unfold ChannelConfig.deleteRepo
  cases ok with
  | false => exact h
  | true =>
    simp only [if_true]
    generalize hr : ({ s with store := Store.findOneAndRemove s.store "repo" (.str repo) }
      : ChannelConfig) = removed
    have hd : ReposInv removed._data := by
      rw [← hr]
      exact h
    cases hf : removed.findByChannel channel with
    | none => exact hd
    | some conf =>
      obtain ⟨⟨k, hk⟩, _⟩ := Collection.find_mem _ _ _ hf
      obtain ⟨xs, hxs, hgood⟩ := hd (k, conf) hk
      simp only at hxs
      simp only [hxs]
      apply reposInv_setChannel _ _ _ _ hd
      intro x hx
      exact hgood x (slice0_subset _ _ _ hx)

theorem reachable_reposInv (s : ChannelConfig) (h : Reachable s) : ReposInv s._data := by
  induction h with
  | empty s h0 =>
    intro kv hkv
    rw [h0] at hkv
    cases hkv
  | add s channel ok _ ih => exact reposInv_add s channel ok ih
  | addRepoToChannel s channel repo ok _ ih => exact reposInv_addRepoToChannel s channel repo ok ih
  | deleteRepo s channel repo ok ok2 _ ih => exact reposInv_deleteRepo s channel repo ok ok2 ih

theorem first_filter_truthy (re : String) (xs : List String) (h : ∀ x ∈ xs, x ≠ "") :
    (ChannelConfig.first (xs.filter (fun r => r = re))).truthy = decide (re ∈ xs) := by
  induction xs with
  | nil => simp [ChannelConfig.first, Value.truthy]
  | cons x rest ih =>
    have hrest : ∀ y ∈ rest, y ≠ "" := fun y hy => h y (List.mem_cons_of_mem _ hy)
    by_cases hx : x = re
    · have hne : x ≠ "" := h x (List.mem_cons_self _ _)
      simp [List.filter, hx, ChannelConfig.first, Value.truthy]
      rw [← hx]
      exact hne
    · have : re ≠ x := fun e => hx e.symm
      simp [List.filter, hx, this, ih hrest]

theorem filterE_findByRepo (re : String) (m : Collection) (h : ReposInv m) :
    Collection.filterE m (ChannelConfig.findByRepoCallback re)
      = .ok (Collection.filter m (containsRepo re)) := by
  induction m with
  | nil => rfl
  | cons e rest ih =>
    obtain ⟨k, v⟩ := e
    have hrest : ReposInv rest := fun kv hkv => h kv (List.mem_cons_of_mem _ hkv)
    obtain ⟨xs, hxs, hgood⟩ := h (k, v) (List.mem_cons_self _ _)
    simp only at hxs
    have hcb : ChannelConfig.findByRepoCallback re v = .ok (containsRepo re v) := by
      unfold ChannelConfig.findByRepoCallback containsRepo
      simp only [hxs]
      rw [first_filter_truthy re xs (fun x hx => (hgood x hx).1)]
    rw [Collection.filterE, hcb]
    simp only [ih hrest]
    cases hc : containsRepo re v <;> simp [Collection.filter, List.filter, hc]

/-! ## Lookups after an update of the cache -/

theorem Collection.find_updateFound (m : Collection) (fn : Obj → Bool) (f : Obj → Obj)
    (hf : ∀ o, fn (f o) = fn o) :
    Collection.find (Collection.updateFound m fn f) fn = (Collection.find m fn).map f := by
  induction m with
  | nil => rfl
  | cons e rest ih =>
    obtain ⟨a, b⟩ := e
    by_cases hb : fn b = true
    · have hfb : fn (f b) = true := by rw [hf, hb]
      rw [Collection.updateFound, if_pos hb, Collection.find, if_pos hfb, Collection.find,
        if_pos hb]
      rfl
    · rw [Collection.updateFound, if_neg hb, Collection.find, if_neg hb, ih, Collection.find,
        if_neg hb]

theorem Collection.find_set (m : Collection) (k : String) (v : Obj) (fn : Obj → Bool)
    (hv : fn v = true) :
    Collection.find (Collection.set m k v) fn = some v ∨
      (Collection.find (Collection.set m k v) fn = Collection.find m fn ∧
        ∃ o, Collection.find m fn = some o) := by
  induction m with
  | nil =>
    left
    rw [Collection.set, Collection.find, if_pos hv]
  | cons e rest ih =>
    obtain ⟨a, b⟩ := e
    by_cases ha : a = k
    · left
      rw [Collection.set, if_pos ha, Collection.find, if_pos hv]
    · rw [Collection.set, if_neg ha]
      by_cases hb : fn b = true
      · right
        rw [Collection.find, if_pos hb, Collection.find, if_pos hb]
        exact ⟨rfl, b, rfl⟩
      · rw [Collection.find, if_neg hb]
        rw [Collection.find.eq_def ((a, b) :: rest)]
        simp only [if_neg hb]
        exact ih

theorem Collection.get_set (m : Collection) (k : String) (v : Obj) :
    Collection.get (Collection.set m k v) k = some v := by
  induction m with
  | nil => simp [Collection.set, Collection.get]
  | cons e rest ih =>
    obtain ⟨a, b⟩ := e
    by_cases ha : a = k
    · simp [Collection.set, Collection.get, ha]
    · simp [Collection.set, Collection.get, ha, ih]

theorem ChannelConfig.setChannel_none (s : ChannelConfig) (c p : String) (v : Value)
    (ok : Bool) (hf : s.findByChannel c = none) :
    s.setChannel c p v ok = (.rejected .typeError, s) := by
  unfold ChannelConfig.setChannel
  rw [hf]

theorem ChannelConfig.setChannel_found (s : ChannelConfig) (c p : String) (v : Value)
    (ok : Bool) (item : Obj) (hf : s.findByChannel c = some item) (hp : p ≠ "channelID") :
    ∃ item2, (s.setChannel c p v ok).2.findByChannel c = some item2 ∧
      Obj.get item2 p = v := by
  have hitem : Obj.get item "channelID" = .str c := by
    have := (Collection.find_mem _ _ _ hf).2
    exact of_decide_eq_true this
  have hkeep : ∀ o : Obj, decide (Obj.get (Obj.set o p v) "channelID" = Value.str c)
      = decide (Obj.get o "channelID" = Value.str c) := by
    intro o
    rw [Obj.get_set_other o p "channelID" v (Ne.symm hp)]
  have hmut : Collection.find (Collection.updateFound s._data
      (fun e => decide (Obj.get e "channelID" = Value.str c)) (fun e => Obj.set e p v))
      (fun e => decide (Obj.get e "channelID" = Value.str c)) = some (Obj.set item p v) := by
    rw [Collection.find_updateFound _ _ _ hkeep]
    unfold ChannelConfig.findByChannel at hf
    rw [hf]
    rfl
  unfold ChannelConfig.setChannel
  rw [hf]
  cases ok with
  | false => exact ⟨Obj.set item p v, hmut, Obj.get_set_same _ _ _⟩
  | true =>
    simp only [if_true]
    unfold ChannelConfig.findByChannel
    simp only
    have hv : (fun e => decide (Obj.get e "channelID" = Value.str c))
        (ChannelConfigItem.new (Obj.set item p v)) = true := by
      simp only [ChannelConfigItem.get_new]
      rw [Obj.get_set_other item p "channelID" v (Ne.symm hp)]
      exact decide_eq_true hitem
    rcases Collection.find_set (Collection.updateFound s._data
      (fun e => decide (Obj.get e "channelID" = Value.str c)) (fun e => Obj.set e p v)) c
      (ChannelConfigItem.new (Obj.set item p v))
      (fun e => decide (Obj.get e "channelID" = Value.str c)) hv with h1 | ⟨h1, _⟩
    · refine ⟨_, h1, ?_⟩
      rw [ChannelConfigItem.get_new, Obj.get_set_same]
    · refine ⟨Obj.set item p v, ?_, Obj.get_set_same _ _ _⟩
      rw [h1, hmut]

/-! ## The cases of `add` -/

theorem ChannelConfig.add_missing (s : ChannelConfig) (ch : Channel) (ok : Bool)
    (h : ch.id = none ∨ ch.id = some "") :
    s.add (some ch) ok = (.rejected (.message "No channel passed!"), s) := by
  obtain ⟨id, name, type, guild⟩ := ch
  rcases h with h | h
  · simp only at h
    subst h
    rfl
  · simp only at h
    subst h
    rfl

theorem ChannelConfig.add_duplicate (s : ChannelConfig) (ch : Channel) (id : String)
    (ok : Bool) (hid : ch.id = some id) (h1 : id ≠ "")
    (h2 : (s.findByChannel id).isSome = true) :
    s.add (some ch) ok
      = (.rejected (.message "Channel already has an entry in database"), s) := by
  obtain ⟨id0, name, type, guild⟩ := ch
  simp only at hid
  subst hid
  simp only [ChannelConfig.add]
  rw [if_neg h1, if_pos h2]

theorem ChannelConfig.add_fresh (s : ChannelConfig) (ch : Channel) (id : String)
    (ok : Bool) (hid : ch.id = some id) (h1 : id ≠ "")
    (h2 : ¬ (s.findByChannel id).isSome = true) :
    s.add (some ch) ok =
      if ok = true then
        (.resolved (),
          { s with
            store := Store.create s.store (addConf ch id)
            _data := Collection.set s._data id (ChannelConfigItem.new (addConf ch id)) })
      else (.rejected .storeError, s) := by
  obtain ⟨id0, name, type, guild⟩ := ch
  simp only at hid
  subst hid
  simp only [ChannelConfig.add]
  rw [if_neg h1, if_neg h2]
  rfl

theorem ChannelConfig.add_resolved (s : ChannelConfig) (ch : Channel) (id : String)
    (ok : Bool) (hid : ch.id = some id) (hres : (s.add (some ch) ok).1 = .resolved ()) :
    id ≠ "" ∧ ((s.add (some ch) ok).2.findByChannel id).isSome = true := by
  by_cases h1 : id = ""
  · rw [ChannelConfig.add_missing s ch ok (Or.inr (h1 ▸ hid))] at hres
    cases hres
  · by_cases h2 : (s.findByChannel id).isSome = true
    · rw [ChannelConfig.add_duplicate s ch id ok hid h1 h2] at hres
      cases hres
    · rw [ChannelConfig.add_fresh s ch id ok hid h1 h2] at hres ⊢
      cases ok with
      | false => cases hres
      | true =>
        refine ⟨h1, ?_⟩
        simp only [if_true]
        unfold ChannelConfig.findByChannel
        simp only
        have hv : (fun e => decide (Obj.get e "channelID" = Value.str id))
            (ChannelConfigItem.new (addConf ch id)) = true := by
          simp only [ChannelConfigItem.get_new]
          simp [addConf, Obj.get]
        rcases Collection.find_set s._data id (ChannelConfigItem.new (addConf ch id))
          (fun e => decide (Obj.get e "channelID" = Value.str id)) hv with h | ⟨h, o, ho⟩
        · rw [h]
          rfl
        · rw [h, ho]
          rfl

/-! ## Cache keys and channel ids -/

theorem Collection.keys_set (m : Collection) (k : String) (v : Obj) :
    (Collection.set m k v).map Prod.fst
      = if k ∈ m.map Prod.fst then m.map Prod.fst else m.map Prod.fst ++ [k] := by
  induction m with
  | nil => simp [Collection.set]
  | cons e rest ih =>
    obtain ⟨a, b⟩ := e
    by_cases ha : a = k
    · subst ha
      simp [Collection.set]
    · have hk : ¬ k = a := fun e => ha e.symm
      rw [Collection.set, if_neg ha, List.map_cons, ih]
      by_cases hm : k ∈ rest.map Prod.fst
      · simp only [hm, if_true, List.map_cons, List.mem_cons, or_true]
      · simp only [hm, if_false, List.map_cons, List.mem_cons, hk, or_self, List.cons_append]

theorem Collection.nodup_keys_set (m : Collection) (k : String) (v : Obj)
    (h : (m.map Prod.fst).Nodup) : ((Collection.set m k v).map Prod.fst).Nodup := by
  rw [Collection.keys_set]
  split
  · exact h
  · rename_i hk
    rw [List.nodup_append]
    refine ⟨h, List.nodup_singleton _, ?_⟩
    intro a ha hb
    rw [List.mem_singleton.1 hb] at ha
    exact hk ha

theorem Collection.keys_updateFound (m : Collection) (fn : Obj → Bool) (f : Obj → Obj) :
    (Collection.updateFound m fn f).map Prod.fst = m.map Prod.fst := by
  induction m with
  | nil => rfl
  | cons e rest ih =>
    obtain ⟨a, b⟩ := e
    by_cases hb : fn b = true
    · rw [Collection.updateFound, if_pos hb]
      rfl
    · rw [Collection.updateFound, if_neg hb, List.map_cons, ih]
      rfl

theorem keysMatch_set (m : Collection) (k : String) (v : Obj) (h : KeysMatch m)
    (hv : Obj.get v "channelID" = .str k) : KeysMatch (Collection.set m k v) := by
  intro kv hkv
  rcases Collection.mem_set _ _ _ _ hkv with h1 | h1
  · rw [h1]
    exact hv
  · exact h kv h1

theorem keysMatch_updateFound (m : Collection) (fn : Obj → Bool) (f : Obj → Obj)
    (h : KeysMatch m) (hf : ∀ o, Obj.get (f o) "channelID" = Obj.get o "channelID") :
    KeysMatch (Collection.updateFound m fn f) := by
  intro kv hkv
  rcases Collection.mem_updateFound _ _ _ _ hkv with h1 | ⟨o, h1, h2⟩
  · exact h kv h1
  · rw [h2, hf]
    exact h (kv.1, o) h1

theorem idInv_setChannel (s : ChannelConfig) (c p : String) (v : Value) (ok : Bool)
    (hp : p ≠ "channelID")
    (h : KeysMatch s._data ∧ (s._data.map Prod.fst).Nodup) :
    KeysMatch (s.setChannel c p v ok).2._data ∧
      ((s.setChannel c p v ok).2._data.map Prod.fst).Nodup := by
  have hkeep : ∀ o : Obj, Obj.get (Obj.set o p v) "channelID" = Obj.get o "channelID" :=
    fun o => Obj.get_set_other o p "channelID" v (Ne.symm hp)
  unfold ChannelConfig.setChannel
  cases hf : s.findByChannel c with
  | none => exact h
  | some old =>
    have hold : Obj.get old "channelID" = .str c :=
      of_decide_eq_true (Collection.find_mem _ _ _ hf).2
    cases ok with
    | false =>
      exact ⟨keysMatch_updateFound _ _ _ h.1 hkeep, by
        simp only [Bool.false_eq_true, if_false]
        rw [Collection.keys_updateFound]
        exact h.2⟩
    | true =>
      simp only [if_true]
      constructor
      · apply keysMatch_set _ _ _ (keysMatch_updateFound _ _ _ h.1 hkeep)
        rw [ChannelConfigItem.get_new, hkeep, hold]
      · apply Collection.nodup_keys_set
        rw [Collection.keys_updateFound]
        exact h.2

theorem idInv_add (s : ChannelConfig) (channel : Option Channel) (ok : Bool)
    (h : KeysMatch s._data ∧ (s._data.map Prod.fst).Nodup) :
    KeysMatch (s.add channel ok).2._data ∧ ((s.add channel ok).2._data.map Prod.fst).Nodup := by
  rcases channel with _ | ch
  · exact h
  · cases hid : ch.id with
    | none =>
      rw [ChannelConfig.add_missing s ch ok (Or.inl hid)]
      exact h
    | some id =>
      by_cases h1 : id = ""
      · rw [ChannelConfig.add_missing s ch ok (Or.inr (h1 ▸ hid))]
        exact h
      · by_cases h2 : (s.findByChannel id).isSome = true
        · rw [ChannelConfig.add_duplicate s ch id ok hid h1 h2]
          exact h
        · rw [ChannelConfig.add_fresh s ch id ok hid h1 h2]
          cases ok with
          | false => exact h
          | true =>
            simp only [if_true]
            constructor
            · apply keysMatch_set _ _ _ h.1
              rw [ChannelConfigItem.get_new]
              simp [addConf, Obj.get]
            · exact Collection.nodup_keys_set _ _ _ h.2

theorem idInv_addRepoToChannel (s : ChannelConfig) (channel repo : String) (ok : Bool)
    (h : KeysMatch s._data ∧ (s._data.map Prod.fst).Nodup) :
    KeysMatch (s.addRepoToChannel channel repo ok).2._data ∧
      ((s.addRepoToChannel channel repo ok).2._data.map Prod.fst).Nodup := by
  unfold ChannelConfig.addRepoToChannel
  split
  · exact h
  · cases hf : s.findByChannel channel with
    | none => exact h
    | some conf =>
      cases hr : Obj.get conf "repos" with
      | arr xs =>
        simp only [hr]
        apply idInv_setChannel _ _ "repos" _ _ (by decide)
        constructor
        · apply keysMatch_updateFound _ _ _ h.1
          intro o
          exact Obj.get_set_other o "repos" "channelID" _ (by decide)
        · simp only
          rw [Collection.keys_updateFound]
          exact h.2
      | undefined =>
        simp only [hr]
        exact h
      | bool b =>
        simp only [hr]
        exact h
      | str t =>
        simp only [hr]
        exact h

theorem idInv_deleteRepo (s : ChannelConfig) (channel repo : String) (ok ok2 : Bool)
    (h : KeysMatch s._data ∧ (s._data.map Prod.fst).Nodup) :
    KeysMatch (s.deleteRepo channel repo ok ok2).2._data ∧
      ((s.deleteRepo channel repo ok ok2).2._data.map Prod.fst).Nodup := by
  unfold ChannelConfig.deleteRepo
  cases ok with
  | false => exact h
  | true =>
    simp only [if_true]
    generalize hr : ({ s with store := Store.findOneAndRemove s.store "repo" (.str repo) }
      : ChannelConfig) = removed
    have hd : KeysMatch removed._data ∧ (removed._data.map Prod.fst).Nodup := by
      rw [← hr]
      exact h
    cases hf : removed.findByChannel channel with
    | none => exact hd
    | some conf =>
      cases hx : Obj.get conf "repos" with
      | arr xs =>
        simp only [hx]
        exact idInv_setChannel _ _ "repos" _ _ (by decide) hd
      | str t =>
        simp only [hx]
        exact idInv_setChannel _ _ "repos" _ _ (by decide) hd
      | undefined =>
        simp only [hx]
        exact hd
      | bool b =>
        simp only [hx]
        exact hd

theorem idInv_delete (s : ChannelConfig) (channel : String) (ok : Bool)
    (h : KeysMatch s._data ∧ (s._data.map Prod.fst).Nodup) :
    KeysMatch (s.delete channel ok).2._data ∧
      ((s.delete channel ok).2._data.map Prod.fst).Nodup := by
  unfold ChannelConfig.delete
  cases ok with
  | false => exact h
  | true =>
    simp only [if_true]
    constructor
    · intro kv hkv
      exact h.1 kv (List.mem_of_mem_filter hkv)
    · exact List.Nodup.sublist (List.Sublist.map _ (List.filter_sublist _)) h.2

theorem reachableKeepingId_idInv (s : ChannelConfig) (h : ReachableKeepingId s) :
    KeysMatch s._data ∧ (s._data.map Prod.fst).Nodup := by
  induction h with
  | empty s h0 =>
    rw [h0]
    exact ⟨fun kv hkv => (by cases hkv), List.nodup_nil⟩
  | add s channel ok _ ih => exact idInv_add s channel ok ih
  | setChannel s channel prop value ok hp _ ih => exact idInv_setChannel s channel prop value ok hp ih
  | addRepoToChannel s channel repo ok _ ih => exact idInv_addRepoToChannel s channel repo ok ih
  | delete s channel ok _ ih => exact idInv_delete s channel ok ih
  | deleteRepo s channel repo ok ok2 _ ih => exact idInv_deleteRepo s channel repo ok ok2 ih

/-! ## The loop of init and the settlements of its creations -/

theorem Collection.find_eq_get (m : Collection) (k : String) (h : KeysMatch m) :
    Collection.find m (fun e => decide (Obj.get e "channelID" = Value.str k))
      = Collection.get m k := by
  induction m with
  | nil => rfl
  | cons e rest ih =>
    obtain ⟨a, b⟩ := e
    have hb : Obj.get b "channelID" = .str a := h (a, b) (List.mem_cons_self _ _)
    have hrest : KeysMatch rest := fun kv hkv => h kv (List.mem_cons_of_mem _ hkv)
    by_cases ha : a = k
    · subst ha
      simp [Collection.find, Collection.get, hb]
    · have hne : ¬ Value.str a = Value.str k := fun e => ha (Value.str.inj e)
      simp [Collection.find, Collection.get, hb, ha, hne, ih hrest]

theorem Collection.get_set_ne (m : Collection) (k j : String) (v : Obj) (h : j ≠ k) :
    Collection.get (Collection.set m k v) j = Collection.get m j := by
  induction m with
  | nil => simp [Collection.set, Collection.get, Ne.symm h]
  | cons e rest ih =>
    obtain ⟨a, b⟩ := e
    by_cases ha : a = k
    · subst ha
      simp [Collection.set, Collection.get, Ne.symm h]
    · by_cases hj : a = j
      · subst hj
        simp [Collection.set, Collection.get, ha]
      · simp [Collection.set, Collection.get, ha, hj, ih]

theorem Collection.set_append (base l : Collection) (k : String) (v : Obj)
    (h : Collection.get base k = none) :
    Collection.set (base ++ l) k v = base ++ Collection.set l k v := by
  induction base with
  | nil => rfl
  | cons e rest ih =>
    obtain ⟨a, b⟩ := e
    by_cases ha : a = k
    · simp [Collection.get, ha] at h
    · have hrest : Collection.get rest k = none := by
        simpa [Collection.get, ha] using h
      simp [Collection.set, ha, ih hrest]

theorem ChannelConfig.initLoop_spec (s : ChannelConfig) (channels : List (Option Channel))
    (hg : ∀ ch, some ch ∈ channels → ch.type = "text" → ch.guild ≠ none) :
    (ChannelConfig.initLoop s channels).2 = false ∧
    ∀ ch, ch ∈ (ChannelConfig.initLoop s channels).1 ↔
      (some ch ∈ channels ∧ ch.type = "text" ∧
        (s.findByChannelValue (Value.ofOption ch.id)).isSome = false) := by
  induction channels with
  | nil => simp [ChannelConfig.initLoop]
  | cons c rest ih =>
    have hrest := ih (fun ch hch ht => hg ch (List.mem_cons_of_mem _ hch) ht)
    cases c with
    | none =>
      simp only [ChannelConfig.initLoop]
      refine ⟨hrest.1, fun ch => ?_⟩
      rw [hrest.2 ch]
      simp
    | some c0 =>
      by_cases ht : c0.type = "text"
      · by_cases hfound : (s.findByChannelValue (Value.ofOption c0.id)).isSome = true
        · simp only [ChannelConfig.initLoop, ht, ne_eq, not_true_eq_false, if_false, hfound,
            if_true]
          refine ⟨hrest.1, fun ch => ?_⟩
          rw [hrest.2 ch]
          constructor
          · rintro ⟨h1, h2, h3⟩
            exact ⟨List.mem_cons_of_mem _ h1, h2, h3⟩
          · rintro ⟨h1, h2, h3⟩
            rcases List.mem_cons.1 h1 with h1 | h1
            · cases h1
              rw [hfound] at h3
              cases h3
            · exact ⟨h1, h2, h3⟩
        · have hguild := hg c0 (List.mem_cons_self _ _) ht
          have hfound2 : (s.findByChannelValue (Value.ofOption c0.id)).isSome = false := by
            simpa using hfound
          cases hgu : c0.guild with
          | none => exact absurd hgu hguild
          | some g =>
            simp only [ChannelConfig.initLoop, ht, ne_eq, not_true_eq_false, if_false, hfound2,
              Bool.false_eq_true, hgu, List.mem_cons, Option.some.injEq]
            refine ⟨hrest.1, fun ch => ?_⟩
            rw [hrest.2 ch]
            constructor
            · rintro (h1 | ⟨h1, h2, h3⟩)
              · subst h1
                exact ⟨Or.inl rfl, ht, hfound2⟩
              · exact ⟨Or.inr h1, h2, h3⟩
            · rintro ⟨h1 | h1, h2, h3⟩
              · exact Or.inl h1
              · exact Or.inr ⟨h1, h2, h3⟩
      · simp only [ChannelConfig.initLoop, ne_eq, ht, not_false_eq_true, if_true]
        refine ⟨hrest.1, fun ch => ?_⟩
        rw [hrest.2 ch]
        constructor
        · rintro ⟨h1, h2, h3⟩
          exact ⟨List.mem_cons_of_mem _ h1, h2, h3⟩
        · rintro ⟨h1, h2, h3⟩
          rcases List.mem_cons.1 h1 with h1 | h1
          · cases h1
            exact absurd h2 ht
          · exact ⟨h1, h2, h3⟩

theorem ChannelConfig.initSettleAll_cons (st : ChannelConfig) (ch : Channel)
    (rest : List Channel) (ok : Channel → Bool) :
    (ChannelConfig.initSettleAll st (ch :: rest) ok).2
      = (ChannelConfig.initSettleAll (ChannelConfig.initSettle st ch (ok ch)).2 rest ok).2 := by
  rw [ChannelConfig.initSettleAll]
  cases (ChannelConfig.initSettle st ch (ok ch)).1 <;> rfl

theorem ChannelConfig.initSettle_data (st : ChannelConfig) (ch : Channel) (ok : Bool) :
    (ChannelConfig.initSettle st ch ok).2._data = st._data ∨
    ∃ id, ch.id = some id ∧ id ≠ "" ∧ ok = true ∧
      (ChannelConfig.initSettle st ch ok).2._data
        = Collection.set st._data id (ChannelConfigItem.new (addConf ch id)) := by
  unfold ChannelConfig.initSettle
  cases hid : ch.id with
  | none => exact Or.inl rfl
  | some id =>
    by_cases h1 : id = ""
    · simp only [h1, if_true]
      exact Or.inl trivial
    · cases ok with
      | false =>
        simp only [h1, if_false, Bool.false_eq_true]
        exact Or.inl trivial
      | true =>
        right
        refine ⟨id, rfl, h1, rfl, ?_⟩
        simp only [h1, if_false, if_true]

theorem ChannelConfig.initSettle_true (st : ChannelConfig) (ch : Channel) (id : String)
    (hid : ch.id = some id) (h1 : id ≠ "") :
    (ChannelConfig.initSettle st ch true).2._data
      = Collection.set st._data id (ChannelConfigItem.new (addConf ch id)) := by
  unfold ChannelConfig.initSettle
  rw [hid]
  simp only [h1, if_false, if_true]

theorem addConf_channelID (ch : Channel) (id : String) :
    Obj.get (ChannelConfigItem.new (addConf ch id)) "channelID" = .str id := by
  rw [ChannelConfigItem.get_new]
  simp [addConf, Obj.get]

theorem keysMatch_initSettleAll (st : ChannelConfig) (started : List Channel)
    (ok : Channel → Bool) (h : KeysMatch st._data) :
    KeysMatch (ChannelConfig.initSettleAll st started ok).2._data := by
  induction started generalizing st with
  | nil => exact h
  | cons ch rest ih =>
    rw [ChannelConfig.initSettleAll_cons]
    apply ih
    rcases ChannelConfig.initSettle_data st ch (ok ch) with h1 | ⟨id, _, _, _, h1⟩
    · rw [h1]
      exact h
    · rw [h1]
      exact keysMatch_set _ _ _ h (addConf_channelID ch id)

theorem prefix_initSettleAll (base : Collection) (st : ChannelConfig)
    (started : List Channel) (ok : Channel → Bool)
    (hnew : ∀ ch ∈ started, ∀ id, ch.id = some id → Collection.get base id = none)
    (h : ∃ a, st._data = base ++ a) :
    ∃ a, (ChannelConfig.initSettleAll st started ok).2._data = base ++ a := by
  induction started generalizing st with
  | nil => exact h
  | cons ch rest ih =>
    rw [ChannelConfig.initSettleAll_cons]
    apply ih _ (fun c hc => hnew c (List.mem_cons_of_mem _ hc))
    obtain ⟨a, ha⟩ := h
    rcases ChannelConfig.initSettle_data st ch (ok ch) with h1 | ⟨id, hid, _, _, h1⟩
    · exact ⟨a, by rw [h1, ha]⟩
    · refine ⟨Collection.set a id (ChannelConfigItem.new (addConf ch id)), ?_⟩
      rw [h1, ha]
      exact Collection.set_append _ _ _ _ (hnew ch (List.mem_cons_self _ _) id hid)

theorem isSome_initSettleAll (st : ChannelConfig) (started : List Channel) (k : String) :
    (Collection.get (ChannelConfig.initSettleAll st started (fun _ => true)).2._data k).isSome
        = true ↔
      ((Collection.get st._data k).isSome = true ∨
        (k ≠ "" ∧ ∃ ch ∈ started, ch.id = some k)) := by
  induction started generalizing st with
  | nil => simp [ChannelConfig.initSettleAll]
  | cons ch rest ih =>
    rw [ChannelConfig.initSettleAll_cons, ih]
    have hstep : (Collection.get (ChannelConfig.initSettle st ch true).2._data k).isSome = true ↔
        ((Collection.get st._data k).isSome = true ∨ (k ≠ "" ∧ ch.id = some k)) := by
      cases hid : ch.id with
      | none =>
        have e : (ChannelConfig.initSettle st ch true).2._data = st._data := by
          unfold ChannelConfig.initSettle
          rw [hid]
        rw [e]
        simp
      | some id =>
        by_cases h1 : id = ""
        · have e : (ChannelConfig.initSettle st ch true).2._data = st._data := by
            unfold ChannelConfig.initSettle
            rw [hid]
            simp only [h1, if_true]
          rw [e]
          constructor
          · intro h
            exact Or.inl h
          · rintro (h | ⟨h2, h3⟩)
            · exact h
            · cases h3
              exact absurd h1 h2
        · rw [ChannelConfig.initSettle_true st ch id hid h1]
          by_cases hk : k = id
          · subst hk
            rw [Collection.get_set]
            simp [h1]
          · rw [Collection.get_set_ne _ _ _ _ hk]
            constructor
            · intro h
              exact Or.inl h
            · rintro (h | ⟨_, h3⟩)
              · exact h
              · cases h3
                exact absurd rfl hk
    rw [hstep]
    constructor
    · rintro ((h | ⟨h1, h2⟩) | ⟨h1, c, hc, h2⟩)
      · exact Or.inl h
      · exact Or.inr ⟨h1, ch, List.mem_cons_self _ _, h2⟩
      · exact Or.inr ⟨h1, c, List.mem_cons_of_mem _ hc, h2⟩
    · rintro (h | ⟨h1, c, hc, h2⟩)
      · exact Or.inl (Or.inl h)
      · rcases List.mem_cons.1 hc with hc | hc
        · subst hc
          exact Or.inl (Or.inr ⟨h1, h2⟩)
        · exact Or.inr ⟨h1, c, hc, h2⟩

theorem ChannelConfig.init_data (s : ChannelConfig) (channels : List (Option Channel))
    (ok : Channel → Bool) (hl : s.loaded = true) :
    (s.init channels ok).2._data
      = (ChannelConfig.initSettleAll s (ChannelConfig.initLoop s channels).1 ok).2._data := by
  unfold ChannelConfig.init
  rw [if_neg (by simp [hl])]
  simp only
  split
  · rfl
  · split <;> rfl

theorem keysMatch_registryC : KeysMatch registryC._data := by
  unfold KeysMatch
  decide

theorem liveChannels_guild :
    ∀ ch, some ch ∈ liveChannels → ch.type = "text" → ch.guild ≠ none := by
  intro ch h _
  simp only [liveChannels, List.mem_cons, Option.some.injEq, List.mem_singleton,
    List.not_mem_nil, or_false] at h
  rcases h with h | h | h <;> subst h <;> decide

/-! ## Write-through and reload -/

theorem Collection.get_updateFound (m : Collection) (c k : String) (f : Obj → Obj)
    (h : KeysMatch m) :
    Collection.get (Collection.updateFound m
        (fun e => decide (Obj.get e "channelID" = Value.str c)) f) k
      = if k = c then (Collection.get m c).map f else Collection.get m k := by
  induction m with
  | nil => simp [Collection.updateFound, Collection.get]
  | cons e rest ih =>
    obtain ⟨a, b⟩ := e
    have hb : Obj.get b "channelID" = .str a := h (a, b) (List.mem_cons_self _ _)
    have hrest : KeysMatch rest := fun kv hkv => h kv (List.mem_cons_of_mem _ hkv)
    by_cases ha : a = c
    · subst ha
      have hfn : decide (Obj.get b "channelID" = Value.str a) = true := decide_eq_true hb
      rw [Collection.updateFound, if_pos hfn]
      by_cases hk : k = a
      · subst hk
        simp [Collection.get]
      · have hk2 : ¬ a = k := fun e => hk e.symm
        simp [Collection.get, hk, hk2]
    · have hfn : ¬ decide (Obj.get b "channelID" = Value.str c) = true := by
        rw [hb]
        simpa using ha
      rw [Collection.updateFound, if_neg hfn]
      by_cases hk : a = k
      · subst hk
        simp [Collection.get, ha]
      · simp only [Collection.get, hk, if_false]
        rw [ih hrest]
        by_cases hkc : k = c
        · simp [hkc, ha]
        · simp [hkc]

theorem keysMatch_setChannel (s : ChannelConfig) (c p : String) (v : Value) (ok : Bool)
    (hp : p ≠ "channelID") (h : KeysMatch s._data) :
    KeysMatch (s.setChannel c p v ok).2._data := by
  have hkeep : ∀ o : Obj, Obj.get (Obj.set o p v) "channelID" = Obj.get o "channelID" :=
    fun o => Obj.get_set_other o p "channelID" v (Ne.symm hp)
  unfold ChannelConfig.setChannel
  cases hf : s.findByChannel c with
  | none => exact h
  | some old =>
    have hold : Obj.get old "channelID" = .str c :=
      of_decide_eq_true (Collection.find_mem _ _ _ hf).2
    cases ok with
    | false => exact keysMatch_updateFound _ _ _ h hkeep
    | true =>
      simp only [if_true]
      apply keysMatch_set _ _ _ (keysMatch_updateFound _ _ _ h hkeep)
      rw [ChannelConfigItem.get_new, hkeep, hold]

theorem Store.get_foldl_update (u : Obj) (l : List String) (d : Obj) (q : String) :
    Obj.get (l.foldl (fun d p =>
        if Obj.get u p = .undefined then d else Obj.set d p (Obj.get u p)) d) q
      = if q ∈ l ∧ Obj.get u q ≠ .undefined then Obj.get u q else Obj.get d q := by
  induction l generalizing d with
  | nil => simp
  | cons a rest ih =>
    rw [List.foldl_cons, ih]
    by_cases h1 : q ∈ rest ∧ Obj.get u q ≠ .undefined
    · have h2 : q ∈ a :: rest ∧ Obj.get u q ≠ .undefined :=
        ⟨List.mem_cons_of_mem _ h1.1, h1.2⟩
      rw [if_pos h1, if_pos h2]
    · rw [if_neg h1]
      by_cases hu : Obj.get u a = .undefined
      · rw [if_pos hu]
        by_cases h2 : q ∈ a :: rest ∧ Obj.get u q ≠ .undefined
        · exfalso
          rcases List.mem_cons.1 h2.1 with h3 | h3
          · rw [h3] at h2
            exact h2.2 hu
          · exact h1 ⟨h3, h2.2⟩
        · rw [if_neg h2]
      · rw [if_neg hu]
        by_cases hq : q = a
        · subst hq
          rw [Obj.get_set_same, if_pos ⟨List.mem_cons_self _ _, hu⟩]
        · rw [Obj.get_set_other _ _ _ _ hq]
          have h2 : ¬ (q ∈ a :: rest ∧ Obj.get u q ≠ .undefined) := by
            rintro ⟨h3, h4⟩
            rcases List.mem_cons.1 h3 with h3 | h3
            · exact hq h3
            · exact h1 ⟨h3, h4⟩
          rw [if_neg h2]

theorem Store.get_applyUpdate (d u : Obj) (q : String) :
    Obj.get (Store.applyUpdate d u) q
      = if q ∈ schemaPaths ∧ Obj.get u q ≠ .undefined then Obj.get u q else Obj.get d q := by
  unfold Store.applyUpdate
  exact Store.get_foldl_update u schemaPaths d q

theorem Store.ids_findOneAndUpdate (st : Store) (c : String) (u : Obj)
    (hu : Obj.get u "channelID" = .str c) :
    (Store.findOneAndUpdate st c u).map (fun d => Obj.get d "channelID")
      = st.map (fun d => Obj.get d "channelID") := by
  induction st with
  | nil => rfl
  | cons d rest ih =>
    by_cases hd : Obj.get d "channelID" = .str c
    · rw [Store.findOneAndUpdate, if_pos hd, List.map_cons, List.map_cons,
        Store.get_applyUpdate]
      rw [if_pos ⟨by decide, by rw [hu]; exact fun e => by cases e⟩, hu, hd]
    · rw [Store.findOneAndUpdate, if_neg hd, List.map_cons, List.map_cons, ih]

theorem Store.mem_findOneAndUpdate_first (st : Store) (c : String) (u : Obj)
    (h : ∃ d ∈ st, Obj.get d "channelID" = .str c) :
    ∃ d ∈ st, Obj.get d "channelID" = .str c ∧
      Store.applyUpdate d u ∈ Store.findOneAndUpdate st c u := by
  induction st with
  | nil =>
    obtain ⟨d, hd, _⟩ := h
    cases hd
  | cons e rest ih =>
    by_cases he : Obj.get e "channelID" = .str c
    · refine ⟨e, List.mem_cons_self _ _, he, ?_⟩
      rw [Store.findOneAndUpdate, if_pos he]
      exact List.mem_cons_self _ _
    · obtain ⟨d, hd, hdc⟩ := h
      rcases List.mem_cons.1 hd with hd | hd
      · rw [hd] at hdc
        exact absurd hdc he
      · obtain ⟨d0, h0, h1, h2⟩ := ih ⟨d, hd, hdc⟩
        refine ⟨d0, List.mem_cons_of_mem _ h0, h1, ?_⟩
        rw [Store.findOneAndUpdate, if_neg he]
        exact List.mem_cons_of_mem _ h2

theorem Store.mem_findOneAndUpdate_other (st : Store) (c : String) (u d : Obj)
    (hd : d ∈ st) (hne : Obj.get d "channelID" ≠ .str c) :
    d ∈ Store.findOneAndUpdate st c u := by
  induction st with
  | nil => cases hd
  | cons e rest ih =>
    by_cases he : Obj.get e "channelID" = .str c
    · rw [Store.findOneAndUpdate, if_pos he]
      rcases List.mem_cons.1 hd with h | h
      · rw [h] at hne
        exact absurd he hne
      · exact List.mem_cons_of_mem _ h
    · rw [Store.findOneAndUpdate, if_neg he]
      rcases List.mem_cons.1 hd with h | h
      · rw [h]
        exact List.mem_cons_self _ _
      · exact List.mem_cons_of_mem _ (ih h)

theorem Store.mem_findOneAndUpdate (st : Store) (c : String) (u d : Obj)
    (hd : d ∈ Store.findOneAndUpdate st c u) :
    d ∈ st ∨ ∃ d0 ∈ st, Obj.get d0 "channelID" = .str c ∧ d = Store.applyUpdate d0 u := by
  induction st with
  | nil => cases hd
  | cons e rest ih =>
    by_cases he : Obj.get e "channelID" = .str c
    · rw [Store.findOneAndUpdate, if_pos he] at hd
      rcases List.mem_cons.1 hd with h | h
      · exact Or.inr ⟨e, List.mem_cons_self _ _, he, h⟩
      · exact Or.inl (List.mem_cons_of_mem _ h)
    · rw [Store.findOneAndUpdate, if_neg he] at hd
      rcases List.mem_cons.1 hd with h | h
      · left
        rw [h]
        exact List.mem_cons_self _ _
      · rcases ih h with h1 | ⟨d0, h0, h1, h2⟩
        · exact Or.inl (List.mem_cons_of_mem _ h1)
        · exact Or.inr ⟨d0, List.mem_cons_of_mem _ h0, h1, h2⟩

theorem validKeys_facts (q : String) (h : q ∈ ChannelConfig.validKeys) :
    q ≠ "channelID" ∧ q ∈ schemaPaths := by
  simp only [ChannelConfig.validKeys, List.mem_cons, List.mem_singleton, List.not_mem_nil,
    or_false] at h
  rcases h with h | h | h | h | h | h <;> subst h <;> decide

theorem wellTyped_defined (p : String) (v : Value) (h : wellTyped p v = true) :
    v ≠ .undefined := by
  intro hv
  subst hv
  unfold wellTyped at h
  split at h <;> simp_all

theorem ChannelConfig.setChannel_ok (s : ChannelConfig) (c p : String) (v : Value)
    (item : Obj) (hf : s.findByChannel c = some item) :
    (s.setChannel c p v true).2 =
      { s with
        store := Store.findOneAndUpdate s.store c (Obj.set item p v)
        _data := Collection.set (Collection.updateFound s._data
          (fun e => decide (Obj.get e "channelID" = Value.str c)) (fun e => Obj.set e p v)) c
          (ChannelConfigItem.new (Obj.set item p v)) } := by
  unfold ChannelConfig.setChannel
  rw [hf]
  rfl

theorem synced_setChannel (s : ChannelConfig) (c p : String) (v : Value) (item : Obj)
    (hs : Synced s) (hf : s.findByChannel c = some item)
    (hp : p ∈ ChannelConfig.validKeys) (hv : wellTyped p v = true) :
    Synced (s.setChannel c p v true).2 := by
  obtain ⟨h1, h2, h3, h4⟩ := hs
  have hpne : p ≠ "channelID" := (validKeys_facts p hp).1
  have hvdef : v ≠ .undefined := wellTyped_defined p v hv
  have hitem : Obj.get item "channelID" = .str c :=
    of_decide_eq_true (Collection.find_mem _ _ _ hf).2
  have hu : Obj.get (Obj.set item p v) "channelID" = .str c := by
    rw [Obj.get_set_other item p "channelID" v (Ne.symm hpne), hitem]
  have hget : Collection.get s._data c = some item := by
    rw [← Collection.find_eq_get s._data c h1]
    exact hf
  refine ⟨keysMatch_setChannel s c p v true hpne h1, ?_, ?_, ?_⟩
  · rw [ChannelConfig.setChannel_ok s c p v item hf]
    intro d hd
    rcases Store.mem_findOneAndUpdate _ _ _ _ hd with hd1 | ⟨d0, _, _, hd1⟩
    · exact h2 d hd1
    · refine ⟨c, ?_⟩
      rw [hd1, Store.get_applyUpdate, if_pos ⟨by decide, by rw [hu]; exact fun e => by cases e⟩,
        hu]
  · rw [ChannelConfig.setChannel_ok s c p v item hf]
    unfold storedIds
    simp only
    rw [Store.ids_findOneAndUpdate _ _ _ hu]
    exact h3
  · rw [ChannelConfig.setChannel_ok s c p v item hf]
    simp only
    intro k o hko
    by_cases hk : k = c
    · subst hk
      rw [Collection.get_set] at hko
      cases hko
      obtain ⟨d, hd, hdc, hfields⟩ := h4 k item hget
      obtain ⟨d0, hd0, hd0c, hmem⟩ := Store.mem_findOneAndUpdate_first s.store k
        (Obj.set item p v) ⟨d, hd, hdc⟩
      have hsame : d0 = d := by
        apply List.inj_on_of_nodup_map h3 hd0 hd
        rw [hd0c, hdc]
      subst hsame
      refine ⟨_, hmem, ?_, ?_⟩
      · rw [Store.get_applyUpdate,
          if_pos ⟨by decide, by rw [hu]; exact fun e => by cases e⟩, hu]
      · intro q hq
        rw [ChannelConfigItem.get_new, Store.get_applyUpdate]
        by_cases hund : Obj.get (Obj.set item p v) q = .undefined
        · rw [if_neg (fun h => h.2 hund), hund, hfields q hq]
          by_cases hqp : q = p
          · subst hqp
            rw [Obj.get_set_same] at hund
            exact absurd hund hvdef
          · rw [Obj.get_set_other _ _ _ _ hqp] at hund
            exact hund
        · rw [if_pos ⟨(validKeys_facts q hq).2, hund⟩]
    · rw [Collection.get_set_ne _ _ _ _ hk, Collection.get_updateFound _ _ _ _ h1,
        if_neg hk] at hko
      obtain ⟨d, hd, hdc, hfields⟩ := h4 k o hko
      refine ⟨d, Store.mem_findOneAndUpdate_other _ _ _ _ hd ?_, hdc, hfields⟩
      rw [hdc]
      exact fun e => hk (Value.str.inj e)

theorem keysMatch_setupRows (rows : Store) (acc data : Collection) (h : KeysMatch acc)
    (hr : ChannelConfig.setupRows rows acc = some data) : KeysMatch data := by
  induction rows generalizing acc with
  | nil =>
    rw [ChannelConfig.setupRows] at hr
    cases hr
    exact h
  | cons e rest ih =>
    rw [ChannelConfig.setupRows] at hr
    cases he : Obj.get e "channelID" with
    | str id =>
      rw [he] at hr
      apply ih _ _ hr
      apply keysMatch_set _ _ _ h
      rw [ChannelConfigItem.get_new, he]
    | undefined => rw [he] at hr; cases hr
    | bool b => rw [he] at hr; cases hr
    | arr xs => rw [he] at hr; cases hr

theorem setupRows_defined (rows : Store) (acc : Collection)
    (h : ∀ d ∈ rows, ∃ id, Obj.get d "channelID" = .str id) :
    ∃ data, ChannelConfig.setupRows rows acc = some data := by
  induction rows generalizing acc with
  | nil => exact ⟨acc, rfl⟩
  | cons e rest ih =>
    obtain ⟨id, hid⟩ := h e (List.mem_cons_self _ _)
    rw [ChannelConfig.setupRows, hid]
    exact ih _ (fun d hd => h d (List.mem_cons_of_mem _ hd))

theorem setupRows_origin (rows : Store) (acc data : Collection)
    (hr : ChannelConfig.setupRows rows acc = some data) (k : String) (o : Obj)
    (hk : Collection.get data k = some o) :
    Collection.get acc k = some o ∨
      ∃ d ∈ rows, Obj.get d "channelID" = .str k ∧ o = ChannelConfigItem.new d := by
  induction rows generalizing acc with
  | nil =>
    rw [ChannelConfig.setupRows] at hr
    cases hr
    exact Or.inl hk
  | cons e rest ih =>
    rw [ChannelConfig.setupRows] at hr
    cases he : Obj.get e "channelID" with
    | str id =>
      rw [he] at hr
      rcases ih _ hr with h1 | ⟨d, hd, hdc, hdo⟩
      · by_cases hki : k = id
        · subst hki
          rw [Collection.get_set] at h1
          cases h1
          exact Or.inr ⟨e, List.mem_cons_self _ _, he, rfl⟩
        · rw [Collection.get_set_ne _ _ _ _ hki] at h1
          exact Or.inl h1
      · exact Or.inr ⟨d, List.mem_cons_of_mem _ hd, hdc, hdo⟩
    | undefined => rw [he] at hr; cases hr
    | bool b => rw [he] at hr; cases hr
    | arr xs => rw [he] at hr; cases hr

theorem setupRows_untouched (rows : Store) (acc data : Collection) (k : String)
    (hr : ChannelConfig.setupRows rows acc = some data)
    (hnone : ∀ d ∈ rows, Obj.get d "channelID" ≠ .str k) :
    Collection.get data k = Collection.get acc k := by
  induction rows generalizing acc with
  | nil =>
    rw [ChannelConfig.setupRows] at hr
    cases hr
    rfl
  | cons e rest ih =>
    rw [ChannelConfig.setupRows] at hr
    cases he : Obj.get e "channelID" with
    | str id =>
      rw [he] at hr
      rw [ih _ hr (fun d hd => hnone d (List.mem_cons_of_mem _ hd))]
      apply Collection.get_set_ne
      intro hki
      apply hnone e (List.mem_cons_self _ _)
      rw [he, hki]
    | undefined => rw [he] at hr; cases hr
    | bool b => rw [he] at hr; cases hr
    | arr xs => rw [he] at hr; cases hr

theorem setupRows_loaded (rows : Store) (acc data : Collection) (k : String) (d : Obj)
    (hr : ChannelConfig.setupRows rows acc = some data)
    (hnd : (rows.map (fun d => Obj.get d "channelID")).Nodup)
    (hd : d ∈ rows) (hdk : Obj.get d "channelID" = .str k) :
    Collection.get data k = some (ChannelConfigItem.new d) := by
  induction rows generalizing acc with
  | nil => cases hd
  | cons e rest ih =>
    rw [List.map_cons, List.nodup_cons] at hnd
    rw [ChannelConfig.setupRows] at hr
    cases he : Obj.get e "channelID" with
    | str id =>
      rw [he] at hr
      rcases List.mem_cons.1 hd with h | h
      · subst h
        rw [hdk] at he
        cases he
        rw [setupRows_untouched rest _ data k hr, Collection.get_set]
        intro d2 hd2 hd2k
        apply hnd.1
        rw [hdk, ← hd2k]
        exact List.mem_map_of_mem _ hd2
      · exact ih _ hr hnd.2 h
    | undefined => rw [he] at hr; cases hr
    | bool b => rw [he] at hr; cases hr
    | arr xs => rw [he] at hr; cases hr

theorem synced_of_setup (st : Store) (s0 : ChannelConfig)
    (hstr : ∀ d ∈ st, ∃ id, Obj.get d "channelID" = .str id)
    (hnd : (st.map (fun d => Obj.get d "channelID")).Nodup)
    (hload : (ChannelConfig.new st).setup true = some s0) : Synced s0 := by
  unfold ChannelConfig.setup at hload
  simp only [if_true, ChannelConfig.new] at hload
  cases hrows : ChannelConfig.setupRows st [] with
  | none =>
    rw [hrows] at hload
    cases hload
  | some data =>
    rw [hrows] at hload
    simp only [Option.map_some', Option.some.injEq] at hload
    subst hload
    refine ⟨?_, hstr, hnd, ?_⟩
    · exact keysMatch_setupRows st [] data (fun kv hkv => by cases hkv) hrows
    · intro k o hko
      rcases setupRows_origin st [] data hrows k o hko with h | ⟨d, hd, hdc, hdo⟩
      · cases h
      · refine ⟨d, hd, hdc, fun q _ => ?_⟩
        rw [hdo, ChannelConfigItem.get_new]

theorem synced_of_sequence (s0 s : ChannelConfig) (h0 : Synced s0)
    (hseq : SetSequence s0 s) : Synced s := by
  induction hseq with
  | start => exact h0
  | step s c p v _ hrec hp hv ih =>
    cases hf : s.findByChannel c with
    | none =>
      rw [hf] at hrec
      cases hrec
    | some item => exact synced_setChannel s c p v item ih hf hp hv

theorem registryC_store_ids :
    ∀ d ∈ registryC.store, ∃ id, Obj.get d "channelID" = .str id := by
  have h : ∀ d ∈ registryC.store, Obj.get d "channelID" = .str "c" := by decide
  exact fun d hd => ⟨"c", h d hd⟩

/-! ## The claims -/

/-- C1: in every registry state reachable from an empty cache by `add`,
`addRepoToChannel` and `deleteRepo`, and for every repository identifier `r`
in any casing, `findByRepo(r)` returns, in cache order, exactly the cached
records whose `repos` list contains the lowercase form of `r`. -/
theorem findByRepo_exact (s : ChannelConfig) (h : Reachable s) (r : String) :
    s.findByRepo r = .ok (Collection.filter s._data (containsRepo (toLowerCase r))) ∧
    ∀ kv, kv ∈ Collection.filter s._data (containsRepo (toLowerCase r)) ↔
      (kv ∈ s._data ∧ ∃ xs, Obj.get kv.2 "repos" = .arr xs ∧ toLowerCase r ∈ xs) := by
  refine ⟨filterE_findByRepo _ _ (reachable_reposInv s h), ?_⟩
  intro kv
  simp only [Collection.filter, List.mem_filter, containsRepo]
  constructor
  · rintro ⟨h1, h2⟩
    refine ⟨h1, ?_⟩
    cases hr : Obj.get kv.2 "repos" with
    | arr xs =>
      rw [hr] at h2
      exact ⟨xs, rfl, of_decide_eq_true h2⟩
    | undefined => rw [hr] at h2; cases h2
    | bool b => rw [hr] at h2; cases h2
    | str t => rw [hr] at h2; cases h2
  · rintro ⟨h1, xs, h2, h3⟩
    refine ⟨h1, ?_⟩
    rw [h2]
    exact decide_eq_true h3

/-- The state `registryWidgets` is reachable, and there `findByRepo` of a
differently cased identifier returns the subscribed record. -/
theorem findByRepo_exact_witness :
    Reachable registryWidgets ∧
    registryWidgets.findByRepo "ACME/widgets"
      = .ok (Collection.filter registryWidgets._data
          (containsRepo (toLowerCase "ACME/widgets"))) ∧
    Collection.filter registryWidgets._data (containsRepo (toLowerCase "ACME/widgets"))
      = registryWidgets._data :=
  ⟨Reachable.addRepoToChannel _ _ _ _ (Reachable.add _ _ _ (Reachable.empty _ rfl)),
   (findByRepo_exact registryWidgets
      (Reachable.addRepoToChannel _ _ _ _ (Reachable.add _ _ _ (Reachable.empty _ rfl)))
      "ACME/widgets").1,
   by decide⟩

/-- C5: in every registry state reachable from an empty cache by `add`,
`addRepoToChannel` and `deleteRepo`, every record has a `repos` list and every
entry of it equals its own lowercase form. -/
theorem repos_lowercase (s : ChannelConfig) (h : Reachable s) :
    ∀ kv ∈ s._data, ∃ xs, Obj.get kv.2 "repos" = .arr xs ∧
      ∀ x ∈ xs, toLowerCase x = x := by
  intro kv hkv
  obtain ⟨xs, h1, h2⟩ := reachable_reposInv s h kv hkv
  exact ⟨xs, h1, fun x hx => (h2 x hx).2⟩

/-- The reachable state `registryWidgets`, built with the identifier
`Acme/Widgets`, holds the entry `acme/widgets`. -/
theorem repos_lowercase_witness :
    Reachable registryWidgets ∧
    (∀ kv ∈ registryWidgets._data, ∃ xs, Obj.get kv.2 "repos" = .arr xs ∧
      ∀ x ∈ xs, toLowerCase x = x) ∧
    (registryWidgets.findByChannel "c").map (fun e => Obj.get e "repos")
      = some (.arr ["acme/widgets"]) :=
  ⟨Reachable.addRepoToChannel _ _ _ _ (Reachable.add _ _ _ (Reachable.empty _ rfl)),
   repos_lowercase registryWidgets
     (Reachable.addRepoToChannel _ _ _ _ (Reachable.add _ _ _ (Reachable.empty _ rfl))),
   by decide⟩

/-- C2 (the code at the failing input): `delete("c")` on the registry that
holds a record for channel `c` resolves and removes the persisted document,
but its filter reads the property `channel`, which no record has, so the
cache is unchanged and `findByChannel("c")` still returns the record. -/
theorem delete_keeps_cached_record :
    (registryC.findByChannel "c").isSome = true ∧
    registryC.store ≠ [] ∧
    (registryC.delete "c" true).1 = .resolved () ∧
    (registryC.delete "c" true).2.store = [] ∧
    (registryC.delete "c" true).2._data = registryC._data ∧
    (registryC.delete "c" true).2.findByChannel "c" = registryC.findByChannel "c" := by
  decide

/-- C3 (the code at the failing input): channel `c` is subscribed to
`acme/widgets`, `acme/gears`, `acme/bolts` in this order; `deleteRepo` of the
first one keeps the entries before it, that is none, and `deleteRepo` of the
second one keeps only the first. -/
theorem deleteRepo_drops_tail :
    (registryThree.findByChannel "c").map (fun e => Obj.get e "repos")
      = some (.arr ["acme/widgets", "acme/gears", "acme/bolts"]) ∧
    (registryThree.deleteRepo "c" "acme/widgets" true true).1.isRejected = false ∧
    ((registryThree.deleteRepo "c" "acme/widgets" true true).2.findByChannel "c").map
      (fun e => Obj.get e "repos") = some (.arr []) ∧
    ((registryThree.deleteRepo "c" "acme/gears" true true).2.findByChannel "c").map
      (fun e => Obj.get e "repos") = some (.arr ["acme/widgets"]) := by
  decide

/-- C4 (counterexample): channel `c` already holds `acme/widgets`; adding
`ACME/Widgets`, whose lowercase form is that entry, does not leave `repos`
unchanged but appends a second copy, so the list has a duplicate. -/
theorem addRepoToChannel_duplicates :
    (registryWidgets.findByChannel "c").map (fun e => Obj.get e "repos")
      = some (.arr ["acme/widgets"]) ∧
    toLowerCase "ACME/Widgets" ∈ ["acme/widgets"] ∧
    ((registryWidgets.addRepoToChannel "c" "ACME/Widgets" true).2.findByChannel "c").map
      (fun e => Obj.get e "repos") = some (.arr ["acme/widgets", "acme/widgets"]) ∧
    ¬ List.Nodup ["acme/widgets", "acme/widgets"] := by
  decide

/-- C4 (amended): for a channel `c` with a record whose `repos` is the list
`xs`, `addRepoToChannel(c, r)` with non-empty arguments always appends the
lowercase form of `r`, present or not: afterwards the record of `c` has
`repos = xs ++ [lower r]`, so the list is free of duplicates exactly when `xs`
was and did not contain the lowercase form of `r`. -/
theorem addRepoToChannel_appends (s : ChannelConfig) (c r : String) (ok : Bool)
    (item : Obj) (xs : List String) (hc : c ≠ "") (hr : r ≠ "")
    (hf : s.findByChannel c = some item) (hx : Obj.get item "repos" = .arr xs) :
    (∃ item2, (s.addRepoToChannel c r ok).2.findByChannel c = some item2 ∧
      Obj.get item2 "repos" = .arr (xs ++ [toLowerCase r])) ∧
    ((xs ++ [toLowerCase r]).Nodup ↔ xs.Nodup ∧ toLowerCase r ∉ xs) := by
  constructor
  · unfold ChannelConfig.addRepoToChannel
    rw [if_neg (by simp [hc, hr]), hf]
    simp only [hx]
    apply ChannelConfig.setChannel_found _ _ _ _ _ (Obj.set item "repos"
      (.arr (xs ++ [toLowerCase r]))) _ (by decide)
    unfold ChannelConfig.findByChannel
    simp only
    rw [Collection.find_updateFound]
    · unfold ChannelConfig.findByChannel at hf
      rw [hf]
      rfl
    · intro o
      rw [Obj.get_set_other o "repos" "channelID" _ (by decide)]
  · rw [List.nodup_append]
    constructor
    · rintro ⟨h1, _, h3⟩
      exact ⟨h1, fun hm => h3 hm (List.mem_singleton_self _)⟩
    · rintro ⟨h1, h2⟩
      refine ⟨h1, List.nodup_singleton _, ?_⟩
      intro a ha hb
      rw [List.mem_singleton.1 hb] at ha
      exact h2 ha

/-- The amended C4 at the registry `registryWidgets` and the identifier
`ACME/Widgets`. -/
theorem addRepoToChannel_appends_witness :
    "c" ≠ "" ∧ "ACME/Widgets" ≠ "" ∧
    registryWidgets.findByChannel "c" = some recordWidgets ∧
    Obj.get recordWidgets "repos" = .arr ["acme/widgets"] ∧
    ((∃ item2, (registryWidgets.addRepoToChannel "c" "ACME/Widgets" true).2.findByChannel "c"
        = some item2 ∧
      Obj.get item2 "repos" = .arr (["acme/widgets"] ++ [toLowerCase "ACME/Widgets"])) ∧
    ((["acme/widgets"] ++ [toLowerCase "ACME/Widgets"]).Nodup ↔
      ["acme/widgets"].Nodup ∧ toLowerCase "ACME/Widgets" ∉ ["acme/widgets"])) :=
  ⟨by decide, by decide, by decide, by decide,
   addRepoToChannel_appends registryWidgets "c" "ACME/Widgets" true recordWidgets
     ["acme/widgets"] (by decide) (by decide) (by decide) (by decide)⟩

/-- C6: `add` is rejected with `No channel passed!` when the channel or its id
is missing (or the id is the empty string), and with `Channel already has an
entry in database` when a record with that channel id is cached; in both
cases the manager, cache and store, is exactly as before. Hence a second `add`
with the id of an `add` that resolved is rejected and leaves the state that
the first one produced. -/
theorem add_rejects (s : ChannelConfig) (ok : Bool) :
    s.add none ok = (.rejected (.message "No channel passed!"), s) ∧
    (∀ ch : Channel, ch.id = none ∨ ch.id = some "" →
      s.add (some ch) ok = (.rejected (.message "No channel passed!"), s)) ∧
    (∀ (ch : Channel) (id : String), ch.id = some id → id ≠ "" →
      (s.findByChannel id).isSome = true →
      s.add (some ch) ok
        = (.rejected (.message "Channel already has an entry in database"), s)) ∧
    (∀ (ch ch2 : Channel) (id : String) (ok2 : Bool), ch.id = some id → ch2.id = some id →
      (s.add (some ch) ok).1 = .resolved () →
      (s.add (some ch) ok).2.add (some ch2) ok2
        = (.rejected (.message "Channel already has an entry in database"),
            (s.add (some ch) ok).2)) := by
  refine ⟨rfl, ?_, ?_, ?_⟩
  · intro ch h
    exact ChannelConfig.add_missing s ch ok h
  · intro ch id hid h1 h2
    exact ChannelConfig.add_duplicate s ch id ok hid h1 h2
  · intro ch ch2 id ok2 hid hid2 hres
    obtain ⟨h1, h2⟩ := ChannelConfig.add_resolved s ch id ok hid hres
    exact ChannelConfig.add_duplicate _ ch2 id ok2 hid2 h1 h2

/-- C6 on the empty registry: a channel without id is rejected, and after
`add(exampleChannel)` resolved a second `add` of the same channel is rejected
and leaves `registryC`. -/
theorem add_rejects_witness :
    emptyRegistry.add (some { exampleChannel with id := none }) true
      = (.rejected (.message "No channel passed!"), emptyRegistry) ∧
    (registryC.findByChannel "c").isSome = true ∧
    registryC.add (some exampleChannel) true
      = (.rejected (.message "Channel already has an entry in database"), registryC) ∧
    (emptyRegistry.add (some exampleChannel) true).1 = .resolved () ∧
    (emptyRegistry.add (some exampleChannel) true).2.add (some exampleChannel) false
      = (.rejected (.message "Channel already has an entry in database"),
          (emptyRegistry.add (some exampleChannel) true).2) :=
  ⟨(add_rejects emptyRegistry true).2.1 _ (Or.inl rfl),
   by decide,
   (add_rejects registryC true).2.2.1 exampleChannel "c" rfl (by decide) (by decide),
   by decide,
   (add_rejects emptyRegistry true).2.2.2 exampleChannel exampleChannel "c" false rfl rfl
     (by decide)⟩

/-- C7 (the code at the failing input): `add(exampleChannel)` on the empty
registry resolves; the record that `findByChannel("c")` then returns has an
empty `repos` but no property `disabledEvents`, while the persisted document
got the default list of the schema. -/
theorem add_caches_no_disabledEvents :
    emptyRegistry.findByChannel "c" = none ∧
    (emptyRegistry.add (some exampleChannel) true).1 = .resolved () ∧
    ((emptyRegistry.add (some exampleChannel) true).2.findByChannel "c").map
      (fun e => Obj.get e "repos") = some (.arr []) ∧
    ((emptyRegistry.add (some exampleChannel) true).2.findByChannel "c").map
      (fun e => Obj.get e "disabledEvents") = some .undefined ∧
    (emptyRegistry.add (some exampleChannel) true).2.store.map
      (fun d => Obj.get d "disabledEvents") = [.arr defaultDisabledEvents] := by
  decide

/-- C8 (counterexample): `channelName` is not in `validKeys`, yet
`setChannel("c", "channelName", "renamed")` resolves, and both the cached
record and the persisted document of channel `c` carry the new name. -/
theorem setChannel_accepts_unlisted_key :
    "channelName" ∉ ChannelConfig.validKeys ∧
    (registryC.findByChannel "c").map (fun e => Obj.get e "channelName")
      = some (.str "general") ∧
    (registryC.setChannel "c" "channelName" (.str "renamed") true).1.isRejected = false ∧
    ((registryC.setChannel "c" "channelName" (.str "renamed") true).2.findByChannel "c").map
      (fun e => Obj.get e "channelName") = some (.str "renamed") ∧
    (registryC.setChannel "c" "channelName" (.str "renamed") true).2.store.map
      (fun d => Obj.get d "channelName") = [.str "renamed"] := by
  decide

/-- C8 (amended): `setChannel` does not consult `validKeys`. For a channel `c`
with a record, every name `p` of a data property (not one of `reservedNames`,
which the prototype chain resolves), listed in `validKeys` or not, and every
value `v`, the call is rejected only when the database write fails; when the
write succeeds it resolves with the record in which `p` is `v`, and the cache
holds a copy of that record, with `p` equal to `v`, under the key `c`. -/
theorem setChannel_ignores_validKeys (s : ChannelConfig) (c p : String) (v : Value)
    (item : Obj) (_hp : p ∉ reservedNames) (hf : s.findByChannel c = some item) :
    (s.setChannel c p v true).1 = .resolved (Obj.set item p v) ∧
    Collection.get (s.setChannel c p v true).2._data c
      = some (ChannelConfigItem.new (Obj.set item p v)) ∧
    Obj.get (ChannelConfigItem.new (Obj.set item p v)) p = v ∧
    (s.setChannel c p v false).1 = .rejected .storeError := by
  unfold ChannelConfig.setChannel
  rw [hf]
  refine ⟨rfl, ?_, ?_, rfl⟩
  · simp only [if_true]
    exact Collection.get_set _ _ _
  · rw [ChannelConfigItem.get_new, Obj.get_set_same]

/-- The amended C8 at the registry `registryC`, the property `channelName`
and the value `renamed`. -/
theorem setChannel_ignores_validKeys_witness :
    "channelName" ∉ ChannelConfig.validKeys ∧ "channelName" ∉ reservedNames ∧
    registryC.findByChannel "c" = some (addConf exampleChannel "c") ∧
    ((registryC.setChannel "c" "channelName" (.str "renamed") true).1
      = .resolved (Obj.set (addConf exampleChannel "c") "channelName" (.str "renamed")) ∧
    Collection.get (registryC.setChannel "c" "channelName" (.str "renamed") true).2._data "c"
      = some (ChannelConfigItem.new
          (Obj.set (addConf exampleChannel "c") "channelName" (.str "renamed"))) ∧
    Obj.get (ChannelConfigItem.new
      (Obj.set (addConf exampleChannel "c") "channelName" (.str "renamed"))) "channelName"
      = .str "renamed" ∧
    (registryC.setChannel "c" "channelName" (.str "renamed") false).1
      = .rejected .storeError) :=
  ⟨by decide, by decide, by decide,
   setChannel_ignores_validKeys registryC "c" "channelName" (.str "renamed")
     (addConf exampleChannel "c") (by decide) (by decide)⟩

/-- C9 (the code at the failing input): the database write of
`setChannel("c", "embed", true)` fails; the promise is rejected and the store
is untouched, but the cached record was assigned before the write and
`findByChannel("c")` already shows `embed = true`. The same holds for the
entry that `addRepoToChannel` pushes. -/
theorem setChannel_mutates_before_write :
    (registryC.findByChannel "c").map (fun e => Obj.get e "embed") = some .undefined ∧
    (registryC.setChannel "c" "embed" (.bool true) false).1 = .rejected .storeError ∧
    (registryC.setChannel "c" "embed" (.bool true) false).2.store = registryC.store ∧
    ((registryC.setChannel "c" "embed" (.bool true) false).2.findByChannel "c").map
      (fun e => Obj.get e "embed") = some (.bool true) ∧
    (registryC.addRepoToChannel "c" "acme/widgets" false).1 = .rejected .storeError ∧
    ((registryC.addRepoToChannel "c" "acme/widgets" false).2.findByChannel "c").map
      (fun e => Obj.get e "repos") = some (.arr ["acme/widgets"]) := by
  decide

/-- C10: for a channel id `c` without a record, `setChannel(c, p, v)` is
rejected with the `TypeError` of writing to the missing record and changes
nothing; `deleteRepo(c, r)` is rejected as well (with that `TypeError`, or
with the database error when its removal query fails), leaves the cache as it
was, and `c` still has no record. -/
theorem unknown_channel_rejected (s : ChannelConfig) (c : String)
    (hf : s.findByChannel c = none) :
    (∀ (p : String) (v : Value) (ok : Bool),
      s.setChannel c p v ok = (.rejected .typeError, s)) ∧
    (∀ (r : String) (ok ok2 : Bool),
      (s.deleteRepo c r ok ok2).1
        = .rejected (if ok = true then .typeError else .storeError) ∧
      (s.deleteRepo c r ok ok2).2._data = s._data ∧
      (s.deleteRepo c r ok ok2).2.findByChannel c = none) := by
  constructor
  · intro p v ok
    exact ChannelConfig.setChannel_none s c p v ok hf
  · intro r ok ok2
    have hrem : ChannelConfig.findByChannel
        { s with store := Store.findOneAndRemove s.store "repo" (.str r) } c = none := hf
    unfold ChannelConfig.deleteRepo
    cases ok with
    | false => exact ⟨rfl, rfl, hf⟩
    | true =>
      simp only [if_true]
      rw [hrem]
      exact ⟨rfl, rfl, hf⟩

/-- C10 at the registry `registryC` and the channel id `d`, which has no
record. -/
theorem unknown_channel_rejected_witness :
    registryC.findByChannel "d" = none ∧
    ((∀ (p : String) (v : Value) (ok : Bool),
      registryC.setChannel "d" p v ok = (.rejected .typeError, registryC)) ∧
    (∀ (r : String) (ok ok2 : Bool),
      (registryC.deleteRepo "d" r ok ok2).1
        = .rejected (if ok = true then .typeError else .storeError) ∧
      (registryC.deleteRepo "d" r ok ok2).2._data = registryC._data ∧
      (registryC.deleteRepo "d" r ok ok2).2.findByChannel "d" = none)) :=
  ⟨by decide, unknown_channel_rejected registryC "d" (by decide)⟩

/-- C11 (the code at the failing input): in `registryC` the cache and the
store hold the channel id `c`; after `delete("c")` resolved the store holds no
document while the cache still holds the record. The removal query of
`deleteRepo`, which matches the path `repo`, likewise removes the document of
channel `c` in `registryRepo` and leaves the cached record. -/
theorem delete_desynchronizes :
    registryC.loaded = true ∧
    cachedIds registryC = [.str "c"] ∧ storedIds registryC = [.str "c"] ∧
    (registryC.delete "c" true).1 = .resolved () ∧
    cachedIds (registryC.delete "c" true).2 = [.str "c"] ∧
    storedIds (registryC.delete "c" true).2 = [] ∧
    cachedIds registryRepo = [.str "c"] ∧ storedIds registryRepo = [.str "c"] ∧
    (registryRepo.deleteRepo "c" "acme/widgets" true true).1.isRejected = false ∧
    cachedIds (registryRepo.deleteRepo "c" "acme/widgets" true true).2 = [.str "c"] ∧
    storedIds (registryRepo.deleteRepo "c" "acme/widgets" true true).2 = [] := by
  decide

/-- C13 (counterexample): `setChannel("c", "channelID", "d")` resolves; the
record cached under the key `c` then has the channel id `d`, and no record
has the channel id `c` any more. -/
theorem setChannel_changes_channelID :
    (registryC.findByChannel "c").map (fun e => Obj.get e "channelID") = some (.str "c") ∧
    (registryC.setChannel "c" "channelID" (.str "d") true).1.isRejected = false ∧
    (Collection.get (registryC.setChannel "c" "channelID" (.str "d") true).2._data "c").map
      (fun e => Obj.get e "channelID") = some (.str "d") ∧
    (registryC.setChannel "c" "channelID" (.str "d") true).2.findByChannel "c" = none := by
  decide

/-- C14 (the code at the failing input): channel `c` is subscribed to three
repositories and `acme/none` is not one of them; both ways of removing
`acme/none` drop the last entry, `acme/bolts`, instead of leaving the list. -/
theorem deleteRepo_absent_drops_last :
    (registryThree.findByChannel "c").map (fun e => Obj.get e "repos")
      = some (.arr ["acme/widgets", "acme/gears", "acme/bolts"]) ∧
    "acme/none" ∉ ["acme/widgets", "acme/gears", "acme/bolts"] ∧
    ((registryThree.deleteRepo "c" "acme/none" true true).2.findByChannel "c").map
      (fun e => Obj.get e "repos") = some (.arr ["acme/widgets", "acme/gears"]) ∧
    ((ChannelConfigItem.deleteRepo registryThree "c" "acme/none" true).2.findByChannel "c").map
      (fun e => Obj.get e "repos") = some (.arr ["acme/widgets", "acme/gears"]) := by
  decide

/-- C15 (the code at the failing input): after `addRepoToChannel("c",
"Acme/Widgets")` resolved, `findRepoInChannel("c", "Acme/Widgets")` returns
nothing, because the entry was stored in lowercase and the lookup compares the
identifier as given; only the lowercase identifier finds the record. -/
theorem findRepoInChannel_case_sensitive :
    (registryC.addRepoToChannel "c" "Acme/Widgets" true).1.isRejected = false ∧
    (registryC.addRepoToChannel "c" "Acme/Widgets" true).2 = registryWidgets ∧
    (registryWidgets.findByChannel "c").isSome = true ∧
    registryWidgets.findRepoInChannel "c" "Acme/Widgets" = .ok none ∧
    registryWidgets.findRepoInChannel "c" "acme/widgets"
      = .ok (registryWidgets.findByChannel "c") :=
  ⟨by decide, rfl, by decide, rfl, rfl⟩

/-- C20 (the code at the failing input): for the first of the three
repositories of channel `c` the manager method passes the empty list to
`setChannel`, the item method passes the two other entries; the records they
resolve with differ. -/
theorem deleteRepo_paths_differ :
    (registryThree.findByChannel "c").map (fun e => Obj.get e "repos")
      = some (.arr ["acme/widgets", "acme/gears", "acme/bolts"]) ∧
    ((registryThree.deleteRepo "c" "acme/widgets" true true).2.findByChannel "c").map
      (fun e => Obj.get e "repos") = some (.arr []) ∧
    ((ChannelConfigItem.deleteRepo registryThree "c" "acme/widgets" true).2.findByChannel
      "c").map (fun e => Obj.get e "repos") = some (.arr ["acme/gears", "acme/bolts"]) ∧
    (registryThree.deleteRepo "c" "acme/widgets" true true).1
      ≠ (ChannelConfigItem.deleteRepo registryThree "c" "acme/widgets" true).1 := by
  decide

/-- C13 (amended): in every registry state reachable from an empty cache by
`add`, `setChannel` on a property other than `channelID`, `addRepoToChannel`,
`delete` and `deleteRepo`, every cache key is the `channelID` of the record
stored under it, the keys are pairwise distinct, and so no two records have
the same channel id. (`setChannel` on `channelID` itself does change the id.) -/
theorem channelID_unique (s : ChannelConfig) (h : ReachableKeepingId s) :
    (∀ kv ∈ s._data, Obj.get kv.2 "channelID" = .str kv.1) ∧
    (s._data.map Prod.fst).Nodup ∧
    (cachedIds s).Nodup := by
  obtain ⟨h1, h2⟩ := reachableKeepingId_idInv s h
  refine ⟨h1, h2, ?_⟩
  have e : cachedIds s = (s._data.map Prod.fst).map Value.str := by
    unfold cachedIds
    rw [List.map_map]
    apply List.map_congr_left
    intro kv hkv
    exact h1 kv hkv
  rw [e]
  apply List.Nodup.map _ h2
  intro a b hab
  cases hab
  rfl

/-- The amended C13 on the registry obtained from `registryThree` by setting
`embed` and adding a second channel. -/
theorem channelID_unique_witness :
    ReachableKeepingId
      ((registryThree.setChannel "c" "embed" (.bool true) true).2.add
        (some { exampleChannel with id := some "d" }) true).2 ∧
    cachedIds ((registryThree.setChannel "c" "embed" (.bool true) true).2.add
        (some { exampleChannel with id := some "d" }) true).2 = [.str "c", .str "d"] ∧
    (cachedIds ((registryThree.setChannel "c" "embed" (.bool true) true).2.add
        (some { exampleChannel with id := some "d" }) true).2).Nodup :=
  ⟨ReachableKeepingId.add _ _ _ (ReachableKeepingId.setChannel _ _ _ _ _ (by decide)
      (ReachableKeepingId.addRepoToChannel _ _ _ _ (ReachableKeepingId.addRepoToChannel _ _ _ _
        (ReachableKeepingId.addRepoToChannel _ _ _ _
          (ReachableKeepingId.add _ _ _ (ReachableKeepingId.empty emptyRegistry rfl)))))),
   by decide,
   (channelID_unique _
    (ReachableKeepingId.add _ _ _ (ReachableKeepingId.setChannel _ _ _ _ _ (by decide)
      (ReachableKeepingId.addRepoToChannel _ _ _ _ (ReachableKeepingId.addRepoToChannel _ _ _ _
        (ReachableKeepingId.addRepoToChannel _ _ _ _
          (ReachableKeepingId.add _ _ _ (ReachableKeepingId.empty emptyRegistry rfl)))))))).2.2⟩

/-- C17: the webhook handler answers with status 403 and calls no function of
`GithubEvents` exactly when the event tag is missing or empty, the body is
missing, or the body has no repository; every other request is answered with
`Processing event.` and status 200. -/
theorem webhooks_rejects_iff (req : Request) :
    (((webhooks req).status = 403 ∧ (webhooks req).calls = []) ↔
      (req.event = none ∨ req.event = some "" ∨ req.body = none ∨
        ∃ data, req.body = some data ∧ data.repository = none)) ∧
    ((webhooks req).status ≠ 403 →
      (webhooks req).status = 200 ∧ (webhooks req).sent = "Processing event.") := by
  obtain ⟨event, body⟩ := req
  cases event with
  | none => simp [webhooks]
  | some e =>
    cases body with
    | none => simp [webhooks]
    | some data =>
      by_cases h : e = "" ∨ data.repository = none
      · simp only [webhooks, if_pos h]
        rcases h with h | h
        · simp [h]
        · simp [h]
      · simp only [webhooks, if_neg h]
        simp only [not_or] at h
        simp [h.1, h.2]

/-- C17 on four requests: without tag, with an empty tag and without body the
answer is 403; a `push` with a repository is acknowledged. -/
theorem webhooks_rejects_iff_witness :
    (webhooks { event := none, body := some { repository := some { full_name := some "a/b" } } }).status
      = 403 ∧
    (webhooks { event := some "", body := some { repository := some { full_name := some "a/b" } } }).status
      = 403 ∧
    (webhooks { event := some "push", body := none }).status = 403 ∧
    (webhooks { event := some "push", body := some { repository := some { full_name := some "a/b" } } }).status
      = 200 ∧
    (webhooks { event := some "push", body := some { repository := some { full_name := some "a/b" } } }).sent
      = "Processing event." :=
  ⟨((webhooks_rejects_iff _).1.2 (Or.inl rfl)).1,
   ((webhooks_rejects_iff _).1.2 (Or.inr (Or.inl rfl))).1,
   ((webhooks_rejects_iff _).1.2 (Or.inr (Or.inr (Or.inl rfl)))).1,
   ((webhooks_rejects_iff
      { event := some "push", body := some { repository := some { full_name := some "a/b" } } }).2
      (by decide)).1,
   ((webhooks_rejects_iff
      { event := some "push", body := some { repository := some { full_name := some "a/b" } } }).2
      (by decide)).2⟩

/-- C18 (counterexample): a `deployment` event with a repository is
acknowledged, but the `switch` has no case for the tag and no function of
`GithubEvents` is called: the event is not passed on. -/
theorem webhooks_drops_unrecognized :
    "deployment" ∉ recognizedEvents ∧
    (webhooks { event := some "deployment",
                body := some { repository := some { full_name := some "acme/widgets" } } })
      = { status := 200, sent := "Processing event.", calls := [] } := by
  decide

/-- C18 (amended): a request with a repository and a non-empty event tag is
always acknowledged. Each of the fourteen recognized tags makes exactly one
call, with the payload: `push` calls `Push`, `release` `Release`, `issues`
`Issues`, `issue_comment` `IssueComment`, `pull_request` `PullRequest`,
`watch` `Watch`, `fork` `Fork`, `ping` `Ping`, `repository` `Repository`,
`member` `Member`, `status` `Status`, `gollum` `Gollum`, and `create` and
`delete` both call `Branch` with the tag as extra first argument. Any other
tag makes no call. -/
theorem webhooks_dispatch (event : String) (data : Payload) (he : event ≠ "")
    (hr : data.repository ≠ none) :
    (webhooks { event := some event, body := some data }).status = 200 ∧
    (webhooks { event := some event, body := some data }).sent = "Processing event." ∧
    (event = "push" → (webhooks { event := some event, body := some data }).calls
      = [{ handler := .Push, event := none, data := data }]) ∧
    (event = "release" → (webhooks { event := some event, body := some data }).calls
      = [{ handler := .Release, event := none, data := data }]) ∧
    (event = "issues" → (webhooks { event := some event, body := some data }).calls
      = [{ handler := .Issues, event := none, data := data }]) ∧
    (event = "issue_comment" → (webhooks { event := some event, body := some data }).calls
      = [{ handler := .IssueComment, event := none, data := data }]) ∧
    (event = "pull_request" → (webhooks { event := some event, body := some data }).calls
      = [{ handler := .PullRequest, event := none, data := data }]) ∧
    (event = "watch" → (webhooks { event := some event, body := some data }).calls
      = [{ handler := .Watch, event := none, data := data }]) ∧
    (event = "fork" → (webhooks { event := some event, body := some data }).calls
      = [{ handler := .Fork, event := none, data := data }]) ∧
    (event = "create" → (webhooks { event := some event, body := some data }).calls
      = [{ handler := .Branch, event := some "create", data := data }]) ∧
    (event = "delete" → (webhooks { event := some event, body := some data }).calls
      = [{ handler := .Branch, event := some "delete", data := data }]) ∧
    (event = "ping" → (webhooks { event := some event, body := some data }).calls
      = [{ handler := .Ping, event := none, data := data }]) ∧
    (event = "repository" → (webhooks { event := some event, body := some data }).calls
      = [{ handler := .Repository, event := none, data := data }]) ∧
    (event = "member" → (webhooks { event := some event, body := some data }).calls
      = [{ handler := .Member, event := none, data := data }]) ∧
    (event = "status" → (webhooks { event := some event, body := some data }).calls
      = [{ handler := .Status, event := none, data := data }]) ∧
    (event = "gollum" → (webhooks { event := some event, body := some data }).calls
      = [{ handler := .Gollum, event := none, data := data }]) ∧
    (event ∈ recognizedEvents →
      ((webhooks { event := some event, body := some data }).calls).length = 1) ∧
    (event ∉ recognizedEvents →
      (webhooks { event := some event, body := some data }).calls = []) := by
  have hw : webhooks { event := some event, body := some data }
      = { status := 200, sent := "Processing event.", calls := webhooksSwitch event data } := by
    simp [webhooks, he, hr]
  rw [hw]
  refine ⟨rfl, rfl, ?_, ?_, ?_, ?_, ?_, ?_, ?_, ?_, ?_, ?_, ?_, ?_, ?_, ?_, ?_, ?_⟩
  · intro h; subst h; rfl
  · intro h; subst h; rfl
  · intro h; subst h; rfl
  · intro h; subst h; rfl
  · intro h; subst h; rfl
  · intro h; subst h; rfl
  · intro h; subst h; rfl
  · intro h; subst h; rfl
  · intro h; subst h; rfl
  · intro h; subst h; rfl
  · intro h; subst h; rfl
  · intro h; subst h; rfl
  · intro h; subst h; rfl
  · intro h; subst h; rfl
  · intro hmem
    simp only [recognizedEvents, List.mem_cons, List.mem_singleton, List.not_mem_nil,
      or_false] at hmem
    rcases hmem with h | h | h | h | h | h | h | h | h | h | h | h | h | h <;>
      subst h <;> rfl
  · intro hmem
    simp only [recognizedEvents, List.mem_cons, List.mem_singleton, List.not_mem_nil,
      or_false, not_or] at hmem
    obtain ⟨h1, h2, h3, h4, h5, h6, h7, h8, h9, h10, h11, h12, h13, h14⟩ := hmem
    simp [webhooksSwitch, h1, h2, h3, h4, h5, h6, h7, h8, h9, h10, h11, h12, h13, h14]

/-- The amended C18 on a `pull_request` event, a `create` event, a `delete`
event and a `deployment` event with an arbitrary payload that has a
repository. -/
theorem webhooks_dispatch_witness :
    ("pull_request" ≠ "" ∧
      (webhooks { event := some "pull_request",
                  body := some { repository := some { full_name := some "acme/widgets" } } }).calls
        = [{ handler := .PullRequest, event := none,
             data := { repository := some { full_name := some "acme/widgets" } } }]) ∧
    (webhooks { event := some "create",
                body := some { repository := some { full_name := some "acme/widgets" } } }).calls
      = [{ handler := .Branch, event := some "create",
           data := { repository := some { full_name := some "acme/widgets" } } }] ∧
    (webhooks { event := some "delete",
                body := some { repository := some { full_name := some "acme/widgets" } } }).calls
      = [{ handler := .Branch, event := some "delete",
           data := { repository := some { full_name := some "acme/widgets" } } }] ∧
    (webhooks { event := some "deployment",
                body := some { repository := some { full_name := some "acme/widgets" } } }).calls
      = [] :=
  ⟨⟨by decide,
    (webhooks_dispatch "pull_request"
      { repository := some { full_name := some "acme/widgets" } }
      (by decide) (by decide)).2.2.2.2.2.2.1 rfl⟩,
   (webhooks_dispatch "create" { repository := some { full_name := some "acme/widgets" } }
      (by decide) (by decide)).2.2.2.2.2.2.2.2.2.1 rfl,
   (webhooks_dispatch "delete" { repository := some { full_name := some "acme/widgets" } }
      (by decide) (by decide)).2.2.2.2.2.2.2.2.2.2.1 rfl,
   (webhooks_dispatch "deployment" { repository := some { full_name := some "acme/widgets" } }
      (by decide) (by decide)).2.2.2.2.2.2.2.2.2.2.2.2.2.2.2.2.2 (by decide)⟩

/-- C19: while `loaded` is false, `init` leaves the manager, cache included,
as it is, emits nothing, registers no listener, and only sets the timer that
calls it again after 5000 ms. -/
theorem init_not_loaded (s : ChannelConfig) (channels : List (Option Channel))
    (ok : Channel → Bool) (h : s.loaded = false) :
    s.init channels ok
      = ({ retryAfter := some 5000, thrown := false, emitted := [], listeners := [] }, s) := by
  unfold ChannelConfig.init
  rw [if_pos h]

/-- C19 on the manager right after its constructor, with one live text
channel. -/
theorem init_not_loaded_witness :
    (ChannelConfig.new []).loaded = false ∧
    (ChannelConfig.new []).init [some exampleChannel] (fun _ => true)
      = ({ retryAfter := some 5000, thrown := false, emitted := [], listeners := [] },
          ChannelConfig.new []) :=
  ⟨rfl, init_not_loaded (ChannelConfig.new []) [some exampleChannel] (fun _ => true) rfl⟩

/-- C12 (counterexample): the registry is loaded and has no record for the
live voice channel `v`; `init` skips every channel whose type is not `text`,
so after it `v` still has no record. -/
theorem init_skips_voice_channel :
    emptyRegistry.loaded = true ∧
    emptyRegistry.findByChannel "v" = none ∧
    (emptyRegistry.init [some voiceChannel] (fun _ => true)).1
      = { retryAfter := none, thrown := false, emitted := [],
          listeners := ["channelDelete", "channelCreate"] } ∧
    (emptyRegistry.init [some voiceChannel] (fun _ => true)).2.findByChannel "v" = none := by
  decide

/-- C12 (amended): for a loaded registry whose cache keys are the channel ids
of their records and live channels whose text channels have a guild, when
every creation succeeds `init` ends without exception, the cache afterwards
is the old cache followed by new entries (no previous record is removed or
modified), and a channel id has a record afterwards exactly when it had one
before or is the non-empty id of a live channel of type `text`. -/
theorem init_adds_text_channels (s : ChannelConfig) (channels : List (Option Channel))
    (hl : s.loaded = true) (hk : KeysMatch s._data)
    (hg : ∀ ch, some ch ∈ channels → ch.type = "text" → ch.guild ≠ none) :
    (s.init channels (fun _ => true)).1.thrown = false ∧
    (∃ added, (s.init channels (fun _ => true)).2._data = s._data ++ added) ∧
    (∀ k, ((s.init channels (fun _ => true)).2.findByChannel k).isSome = true ↔
      ((s.findByChannel k).isSome = true ∨
        (k ≠ "" ∧ ∃ ch, some ch ∈ channels ∧ ch.type = "text" ∧ ch.id = some k))) := by
  obtain ⟨hloop2, hloop1⟩ := ChannelConfig.initLoop_spec s channels hg
  have hfind : ∀ k, s.findByChannel k = Collection.get s._data k :=
    fun k => Collection.find_eq_get s._data k hk
  refine ⟨?_, ?_, ?_⟩
  · unfold ChannelConfig.init
    rw [if_neg (by simp [hl])]
    simp only [hloop2, Bool.false_eq_true, if_false]
    split <;> rfl
  · rw [ChannelConfig.init_data s channels _ hl]
    apply prefix_initSettleAll s._data s _ _ _ ⟨[], by simp⟩
    intro ch hch id hid
    have h3 := ((hloop1 ch).1 hch).2.2
    rw [hid] at h3
    have h4 : s.findByChannel id = none := by
      cases hq : s.findByChannel id with
      | none => rfl
      | some o =>
        have hq2 : s.findByChannelValue (Value.ofOption (some id)) = some o := hq
        rw [hq2] at h3
        cases h3
    rw [← hfind id]
    exact h4
  · intro k
    have hfinal : (s.init channels (fun _ => true)).2.findByChannel k
        = Collection.get (s.init channels (fun _ => true)).2._data k := by
      apply Collection.find_eq_get
      rw [ChannelConfig.init_data s channels _ hl]
      exact keysMatch_initSettleAll s _ _ hk
    rw [hfinal, ChannelConfig.init_data s channels _ hl, isSome_initSettleAll, hfind k]
    constructor
    · rintro (h | ⟨h1, ch, hch, hid⟩)
      · exact Or.inl h
      · obtain ⟨h2, h3, _⟩ := (hloop1 ch).1 hch
        exact Or.inr ⟨h1, ch, h2, h3, hid⟩
    · rintro (h | ⟨h1, ch, h2, h3, hid⟩)
      · exact Or.inl h
      · by_cases hq : (Collection.get s._data k).isSome = true
        · exact Or.inl hq
        · right
          refine ⟨h1, ch, (hloop1 ch).2 ⟨h2, h3, ?_⟩, hid⟩
          rw [hid]
          have hq2 : s.findByChannelValue (Value.ofOption (some k)) = s.findByChannel k := rfl
          rw [hq2, hfind k]
          simpa using hq

/-- The amended C12 on the registry `registryC` with three live channels: the
text channel `c`, which has a record, the text channel `d`, which has none,
and the voice channel `v`. -/
theorem init_adds_text_channels_witness :
    registryC.loaded = true ∧ KeysMatch registryC._data ∧
    (registryC.init liveChannels (fun _ => true)).1.thrown = false ∧
    cachedIds (registryC.init liveChannels (fun _ => true)).2 = [.str "c", .str "d"] ∧
    (∃ added, (registryC.init liveChannels (fun _ => true)).2._data
      = registryC._data ++ added) :=
  ⟨by decide, keysMatch_registryC,
   (init_adds_text_channels registryC liveChannels (by decide) keysMatch_registryC
      liveChannels_guild).1,
   by decide,
   (init_adds_text_channels registryC liveChannels (by decide) keysMatch_registryC
      liveChannels_guild).2.1⟩

/-- C16 (counterexample): on the registry loaded from the store,
`setChannel("c", "prefix", "!")` resolves and the cached record shows the new
value, but `prefix` is no path of the schema and is not written to the
document: after a reload from the store the record of `c` has no `prefix`. -/
theorem setChannel_prefix_lost_on_reload :
    (ChannelConfig.new registryC.store).setup true = some loadedC ∧
    (loadedC.setChannel "c" "prefix" (.str "!") true).1.isRejected = false ∧
    ((loadedC.setChannel "c" "prefix" (.str "!") true).2.findByChannel "c").map
      (fun e => Obj.get e "prefix") = some (.str "!") ∧
    (((ChannelConfig.new (loadedC.setChannel "c" "prefix" (.str "!") true).2.store).setup
      true).bind (fun r => r.findByChannel "c")).map (fun e => Obj.get e "prefix")
      = some .undefined := by
  decide

/-- C16 (amended): let the registry `s0` be loaded from a store whose
documents have pairwise distinct string channel ids, and let `s` be reached
from it by calls of `setChannel` that resolve, each on a property of
`validKeys` with a value of the schema type of that property. Then a reload
from the store of `s` succeeds, and for every channel with a cached record in
`s` the reloaded registry has a record that agrees with it on every property
of `validKeys`. -/
theorem setChannel_roundtrip (st : Store) (s0 s : ChannelConfig)
    (hstr : ∀ d ∈ st, ∃ id, Obj.get d "channelID" = .str id)
    (hnd : (st.map (fun d => Obj.get d "channelID")).Nodup)
    (hload : (ChannelConfig.new st).setup true = some s0)
    (hseq : SetSequence s0 s) :
    ∃ r, (ChannelConfig.new s.store).setup true = some r ∧
      ∀ c item, s.findByChannel c = some item →
        ∃ item2, r.findByChannel c = some item2 ∧
          ∀ q ∈ ChannelConfig.validKeys, Obj.get item2 q = Obj.get item q := by
  obtain ⟨h1, h2, h3, h4⟩ := synced_of_sequence s0 s (synced_of_setup st s0 hstr hnd hload) hseq
  obtain ⟨data, hdata⟩ := setupRows_defined s.store [] h2
  refine ⟨{ ChannelConfig.new s.store with loaded := true, _data := data }, ?_, ?_⟩
  · unfold ChannelConfig.setup
    simp only [if_true]
    have e : ChannelConfig.setupRows (ChannelConfig.new s.store).store
        (ChannelConfig.new s.store)._data = some data := hdata
    rw [e]
    rfl
  · intro c item hf
    have hget : Collection.get s._data c = some item := by
      rw [← Collection.find_eq_get s._data c h1]
      exact hf
    obtain ⟨d, hd, hdc, hfields⟩ := h4 c item hget
    refine ⟨ChannelConfigItem.new d, ?_, ?_⟩
    · have hk : KeysMatch data :=
        keysMatch_setupRows s.store [] data (fun kv hkv => by cases hkv) hdata
      have e : ChannelConfig.findByChannel
          { ChannelConfig.new s.store with loaded := true, _data := data } c
          = Collection.get data c := Collection.find_eq_get data c hk
      rw [e]
      exact setupRows_loaded s.store [] data c d hdata h3 hd hdc
    · intro q hq
      rw [ChannelConfigItem.get_new, hfields q hq]

/-- The amended C16 on the registry loaded from the store of `registryC`,
after `embed` and `repos` of channel `c` were set. -/
theorem setChannel_roundtrip_witness :
    (ChannelConfig.new registryC.store).setup true = some loadedC ∧
    SetSequence loadedC
      ((loadedC.setChannel "c" "embed" (.bool true) true).2.setChannel "c" "repos"
        (.arr ["acme/widgets"]) true).2 ∧
    ∃ r, (ChannelConfig.new ((loadedC.setChannel "c" "embed" (.bool true) true).2.setChannel
        "c" "repos" (.arr ["acme/widgets"]) true).2.store).setup true = some r ∧
      ∀ c item, ((loadedC.setChannel "c" "embed" (.bool true) true).2.setChannel "c" "repos"
          (.arr ["acme/widgets"]) true).2.findByChannel c = some item →
        ∃ item2, r.findByChannel c = some item2 ∧
          ∀ q ∈ ChannelConfig.validKeys, Obj.get item2 q = Obj.get item q :=
  ⟨by decide,
   SetSequence.step _ _ _ _ (SetSequence.step _ _ _ _ SetSequence.start (by decide)
     (by decide) (by decide)) (by decide) (by decide) (by decide),
   setChannel_roundtrip registryC.store loadedC _ registryC_store_ids (by decide) (by decide)
     (SetSequence.step _ _ _ _ (SetSequence.step _ _ _ _ SetSequence.start (by decide)
       (by decide) (by decide)) (by decide) (by decide) (by decide))⟩

end Yappy
